import Mathlib

/-!
# Loudmouth connection core (`loudmouth/lm-connection.c`)

A shallow embedding of the connection object of `lm-connection.c` and of the
functions that act on it, followed by theorems about routing, queueing, the
blocking request/reply loops, the error paths, the lifecycle of the connection
and legacy authentication.

Conventions of the embedding

* A C function that mutates the connection becomes a function returning the new
  `LmConnection` together with the list of `Event`s it caused, in order: bytes
  handed to the channel, user callbacks and message handlers invoked.
* Pointers that may be `NULL` are `Option`s; a call whose C behaviour is
  undefined (a `NULL` handed to `strcmp`, an index past the queue) or that never
  returns (the event loop delivers nothing more) yields `none`.
* User callbacks are known by the address of their function; a user message
  handler moreover carries the verdict it gives on each stanza.  User code is
  taken not to call back into the connection while it runs.
* The main loop is an explicit schedule: one entry per call of
  `g_main_context_iteration`, listing the readiness callbacks it dispatches.
* Machine integers are `Nat`s and `Int`s; the one result that can leave the
  range of a 32-bit `gint`, the difference of two priorities, is reduced by
  `to_gint`.
-/

namespace Loudmouth

/-! ## Stanzas -/

/-- Modelled from the spec: the stanza type tag (`LmMessageType`, declared in
`lm-message.h`).  `LM_MESSAGE_TYPE_UNKNOWN` is the length of the `handlers`
array and so never a valid index; it is not a constructor here. -/
inductive LmMessageType
  | LM_MESSAGE_TYPE_MESSAGE
  | LM_MESSAGE_TYPE_PRESENCE
  | LM_MESSAGE_TYPE_IQ
  | LM_MESSAGE_TYPE_STREAM
  | LM_MESSAGE_TYPE_STREAM_ERROR
  deriving DecidableEq, Repr

/-- Modelled from the spec: the stanza sub-type tag (`LmMessageSubType`,
declared in `lm-message.h`); only `RESULT` and `ERROR` are told apart by the
connection, `SET` is what it builds. -/
inductive LmMessageSubType
  | LM_MESSAGE_SUB_TYPE_NOT_SET
  | LM_MESSAGE_SUB_TYPE_GET
  | LM_MESSAGE_SUB_TYPE_SET
  | LM_MESSAGE_SUB_TYPE_RESULT
  | LM_MESSAGE_SUB_TYPE_ERROR
  deriving DecidableEq, Repr

/-- Modelled from the spec: the stanza tree (`LmMessageNode`): a name, an
optional text value, attributes in order, children in order. -/
inductive LmMessageNode
  | mk (name : String) (value : Option String)
       (attributes : List (String × String)) (children : List LmMessageNode)

namespace LmMessageNode

/-- Element name of a node. -/
def name : LmMessageNode → String
  | mk n _ _ _ => n

/-- Text value of a node, if any. -/
def value : LmMessageNode → Option String
  | mk _ v _ _ => v

/-- Attributes of a node, as key/value pairs. -/
def attributes : LmMessageNode → List (String × String)
  | mk _ _ a _ => a

/-- Children of a node. -/
def children : LmMessageNode → List LmMessageNode
  | mk _ _ _ c => c

end LmMessageNode

/-- Modelled from the spec: a stanza (`LmMessage`): type tag, sub-type tag and
the root node of its tree. -/
structure LmMessage where
  type : LmMessageType
  sub_type : LmMessageSubType
  node : LmMessageNode

/-- Modelled from the spec: `lm_message_get_type`, the type tag of a stanza. -/
def lm_message_get_type (m : LmMessage) : LmMessageType := m.type

/-- Modelled from the spec: `lm_message_get_sub_type`, the sub-type tag. -/
def lm_message_get_sub_type (m : LmMessage) : LmMessageSubType := m.sub_type

/-- Modelled from the spec: `lm_message_node_get_attribute` (`get_attribute` of
the stanza tree): the value stored under `name`, `none` for C's `NULL`. -/
def lm_message_node_get_attribute (node : LmMessageNode) (name : String) : Option String :=
  (node.attributes.find? (fun kv => kv.1 == name)).map Prod.snd

/-- Modelled from the spec: `lm_message_node_set_attributes` for one pair:
replaces the value stored under `name`, or appends the pair. -/
def lm_message_node_set_attribute (node : LmMessageNode) (name value : String) : LmMessageNode :=
  match node with
  | .mk n v attrs ch =>
    if attrs.any (fun kv => kv.1 == name) then
      .mk n v (attrs.map (fun kv => if kv.1 == name then (name, value) else kv)) ch
    else
      .mk n v (attrs ++ [(name, value)]) ch

/-- Modelled from the spec: `lm_message_node_set_attributes`, the pairs set in
the order given. -/
def lm_message_node_set_attributes (node : LmMessageNode) (pairs : List (String × String)) :
    LmMessageNode :=
  pairs.foldl (fun nd kv => lm_message_node_set_attribute nd kv.1 kv.2) node

/-- Modelled from the spec: attaching a finished child node below `node`
(`add_child` of the stanza tree appends at the end of the children). -/
def lm_message_node_attach (node child : LmMessageNode) : LmMessageNode :=
  match node with
  | .mk n v attrs ch => .mk n v attrs (ch ++ [child])

/-- Modelled from the spec: `lm_message_node_add_child (node, name, value)`:
appends a child with the given name and text and no attributes. -/
def lm_message_node_add_child (node : LmMessageNode) (name : String) (value : Option String) :
    LmMessageNode :=
  lm_message_node_attach node (.mk name value [] [])

/-- Modelled from the spec: `_lm_message_type_to_string`, the element name of a
stanza type. -/
def _lm_message_type_to_string : LmMessageType → String
  | .LM_MESSAGE_TYPE_MESSAGE => "message"
  | .LM_MESSAGE_TYPE_PRESENCE => "presence"
  | .LM_MESSAGE_TYPE_IQ => "iq"
  | .LM_MESSAGE_TYPE_STREAM => "stream:stream"
  | .LM_MESSAGE_TYPE_STREAM_ERROR => "stream:error"

/-- Modelled from the spec: the `type` attribute text of a sub-type. -/
def _lm_message_sub_type_to_string : LmMessageSubType → Option String
  | .LM_MESSAGE_SUB_TYPE_NOT_SET => none
  | .LM_MESSAGE_SUB_TYPE_GET => some "get"
  | .LM_MESSAGE_SUB_TYPE_SET => some "set"
  | .LM_MESSAGE_SUB_TYPE_RESULT => some "result"
  | .LM_MESSAGE_SUB_TYPE_ERROR => some "error"

/-- Modelled from the spec: `lm_message_new_with_sub_type (to, type, sub_type)`:
a stanza of the given type whose root element is named after the type,
addressed to `recipient` when given and carrying the sub-type as its `type`
attribute. -/
def lm_message_new_with_sub_type (recipient : Option String) (type : LmMessageType)
    (sub_type : LmMessageSubType) : LmMessage :=
  let n0 : LmMessageNode := .mk (_lm_message_type_to_string type) none [] []
  let n1 := match recipient with
    | some t => lm_message_node_set_attribute n0 "to" t
    | none => n0
  let n2 := match _lm_message_sub_type_to_string sub_type with
    | some t => lm_message_node_set_attribute n1 "type" t
    | none => n1
  { type := type, sub_type := sub_type, node := n2 }

/-- Modelled from the spec: `lm_message_new (to, type)`, a stanza without
sub-type. -/
def lm_message_new (recipient : Option String) (type : LmMessageType) : LmMessage :=
  lm_message_new_with_sub_type recipient type .LM_MESSAGE_SUB_TYPE_NOT_SET

/-! ## Callbacks, handlers, events -/

/-- Outcome of a message handler (`LmHandlerResult`). -/
inductive LmHandlerResult
  | LM_HANDLER_RESULT_REMOVE_MESSAGE
  | LM_HANDLER_RESULT_ALLOW_MORE_HANDLERS
  deriving DecidableEq, Repr

/-- Reason handed to the disconnect callback (`LmDisconnectReason`). -/
inductive LmDisconnectReason
  | LM_DISCONNECT_REASON_OK
  | LM_DISCONNECT_REASON_ERROR
  | LM_DISCONNECT_REASON_HUP
  deriving DecidableEq, Repr

/-- Error codes of the `LM_ERROR` domain that this file raises. -/
inductive LmError
  | LM_ERROR_CONNECTION_NOT_OPEN
  | LM_ERROR_CONNECTION_OPEN
  deriving DecidableEq, Repr

/-- What `g_set_error` stores: the code and the message text. -/
structure GError where
  code : LmError
  message : String
  deriving DecidableEq, Repr

/-- One-shot or long-lived callback slot content (`LmCallback`): address of the
user function (`none` for `NULL`), user data, optional destructor. -/
structure LmCallback where
  func : Option Nat
  user_data : Nat
  notify : Option Nat
  deriving DecidableEq, Repr

/-- Function of a message handler: a user function, known by the verdict it
gives on each stanza, or the connection's own `connection_auth_reply`. -/
inductive LmHandleMessageFunction
  | user (verdict : LmMessage → LmHandlerResult)
  | connection_auth_reply

/-- Message handler object (`LmMessageHandler`): its address (handlers are
compared by identity) and its function. -/
structure LmMessageHandler where
  addr : Nat
  function : LmHandleMessageFunction

/-- Entry of a type chain (`HandlerData`).  The priority is a value of the enum
`LmHandlerPriority`, a 32-bit integer in C: the field holds its value, and the
theorems about priorities take it within the range of `gint`. -/
structure HandlerData where
  priority : Int
  handler : LmMessageHandler

/-- Observable actions, in the order the code performs them. -/
inductive Event
  | write (text : String)
  | flush
  | handler (addr : Nat) (m : LmMessage)
  | result_cb (func : Nat) (result : Bool) (user_data : Nat)
  | disconnect_cb (func : Nat) (reason : LmDisconnectReason) (user_data : Nat)
  | notify (notify : Nat) (user_data : Nat)

/-- Modelled from the spec: `_lm_utils_new_callback`, a slot content holding the
three values given. -/
def _lm_utils_new_callback (func : Option Nat) (user_data : Nat) (notify : Option Nat) :
    LmCallback :=
  { func := func, user_data := user_data, notify := notify }

/-- Modelled from the spec: `_lm_utils_free_callback`: a stored callback is
destructed, its destructor (if any) run on the user data; `NULL` is ignored. -/
def _lm_utils_free_callback : Option LmCallback → List Event
  | none => []
  | some cb =>
    match cb.notify with
    | some n => [Event.notify n cb.user_data]
    | none => []

/-! ## The connection -/

/-- The connection object (`struct _LmConnection`).  `id_handlers` is the hash
table from message id to reply handler, kept as an association list with at
most one pair per key; `handlers` is the array of type chains; `io_channel` is
the socket handle; `incoming_source` tells whether the dispatch source is
attached to the main context. -/
structure LmConnection where
  server : Option String
  port : Nat
  use_ssl : Bool
  is_open : Bool
  is_authenticated : Bool
  stream_id : Option String
  id_handlers : List (String × LmMessageHandler)
  handlers : LmMessageType → List HandlerData
  io_channel : Option Nat
  open_cb : Option LmCallback
  close_cb : Option LmCallback
  auth_cb : Option LmCallback
  register_cb : Option LmCallback
  disconnect_cb : Option LmCallback
  incoming_messages : List LmMessage
  incoming_source : Bool
  ref_count : Nat

/-- Lookup in the id table (`g_hash_table_lookup`). -/
def g_hash_table_lookup (t : List (String × LmMessageHandler)) (key : String) :
    Option LmMessageHandler :=
  (t.find? (fun kv => kv.1 == key)).map Prod.snd

/-- Removal of a key from the id table (`g_hash_table_remove`). -/
def g_hash_table_remove (t : List (String × LmMessageHandler)) (key : String) :
    List (String × LmMessageHandler) :=
  t.filter (fun kv => !(kv.1 == key))

/-- Insertion into the id table (`g_hash_table_insert`): an existing pair under
the key is replaced. -/
def g_hash_table_insert (t : List (String × LmMessageHandler)) (key : String)
    (h : LmMessageHandler) : List (String × LmMessageHandler) :=
  (key, h) :: g_hash_table_remove t key

/-- Sorted insertion of GLib (`g_slist_insert_sorted`): the new element goes
right before the first element `y` with `func x y ≤ 0`, at the end if there is
none. -/
def g_slist_insert_sorted {α : Type} (list : List α) (data : α) (func : α → α → Int) : List α :=
  match list with
  | [] => [data]
  | y :: rest =>
    if func data y > 0 then y :: g_slist_insert_sorted rest data func
    else data :: y :: rest

/-- Embedding of `lm_connection_is_open`. -/
def lm_connection_is_open (connection : LmConnection) : Bool := connection.is_open

/-- Embedding of `lm_connection_is_authenticated`. -/
def lm_connection_is_authenticated (connection : LmConnection) : Bool :=
  connection.is_authenticated

/-- Modelled from the spec: the constant `LM_CONNECTION_DEFAULT_PORT` of
`lm-connection.h`, the standard client port. -/
def LM_CONNECTION_DEFAULT_PORT : Nat := 5222

/-- Embedding of `lm_connection_new`: a closed connection with empty queue and registries,
its dispatch source attached. -/
def lm_connection_new (server : Option String) : LmConnection :=
  { server := server
    port := LM_CONNECTION_DEFAULT_PORT
    use_ssl := false
    is_open := false
    is_authenticated := false
    stream_id := none
    id_handlers := []
    handlers := fun _ => []
    io_channel := none
    open_cb := none
    close_cb := none
    auth_cb := none
    register_cb := none
    disconnect_cb := none
    incoming_messages := []
    incoming_source := true
    ref_count := 1 }

/-! ## External collaborators -/

/-- The pure collaborators the connection calls: serialisation of a stanza tree
(`lm_message_node_to_string`) and the digest primitive (`lm_sha_hash`). -/
structure Collaborators where
  lm_message_node_to_string : LmMessageNode → String
  lm_sha_hash : String → String

/-- Outcome of the socket set-up inside `connection_do_open`. -/
inductive SocketOutcome
  | gethostbyname_failed
  | connect_failed
  | connected (fd : Nat)
  deriving DecidableEq, Repr

/-- Return value of a `gboolean` call together with the `GError` it stored. -/
abbrev Status := Bool × Option GError

/-- Failure: `g_set_error (...)` followed by `return FALSE`. -/
def Status.fail (code : LmError) (message : String) : Status :=
  (false, some { code := code, message := message })

/-- Success: `return TRUE` with no error stored. -/
def Status.success : Status := (true, none)

/-! ## Sending -/

/-- Embedding of `strstr`: offset of the first occurrence of `needle` in `hay`. -/
def strstr (hay needle : List Char) : Option Nat :=
  match hay with
  | [] => if needle.isPrefixOf [] then some 0 else none
  | c :: t =>
    if needle.isPrefixOf (c :: t) then some 0
    else (strstr t needle).map (· + 1)

/-- Embedding of `connection_send` with `len == -1`: refuses on a connection that is not
open, otherwise hands the whole string to the channel. -/
def connection_send (connection : LmConnection) (str : String) : Status × List Event :=
  if !lm_connection_is_open connection then
    (Status.fail .LM_ERROR_CONNECTION_NOT_OPEN
      "Connection is not open, call lm_connection_open() first", [])
  else
    (Status.success, [Event.write str])

/-- The text `lm_connection_send` passes on: the serialised stanza, cut (by
writing a terminating zero) where `strstr` finds the closing stream tag. -/
def send_text (xml_str : String) : String :=
  match strstr xml_str.data "</stream:stream>".data with
  | some ch => String.mk (xml_str.data.take ch)
  | none => xml_str

/-- Embedding of `lm_connection_send`. -/
def lm_connection_send (ext : Collaborators) (connection : LmConnection) (message : LmMessage) :
    Status × List Event :=
  let xml_str := ext.lm_message_node_to_string message.node
  connection_send connection (send_text xml_str)

/-- Embedding of `lm_connection_send_raw`. -/
def lm_connection_send_raw (connection : LmConnection) (str : String) : Status × List Event :=
  connection_send connection str

/-- The request as `lm_connection_send_with_reply` and its blocking sibling
leave it: its own `id` if it has one, else the generated id `gen_id` set on it. -/
def request_with_id (message : LmMessage) (gen_id : String) : String × LmMessage :=
  match lm_message_node_get_attribute message.node "id" with
  | some id => (id, message)
  | none =>
    (gen_id, { message with node := lm_message_node_set_attributes message.node [("id", gen_id)] })

/-- Embedding of `lm_connection_send_with_reply`: the handler is entered under the request id
before the request is sent; `gen_id` is what `_lm_utils_generate_id` returns. -/
def lm_connection_send_with_reply (ext : Collaborators) (gen_id : String)
    (connection : LmConnection) (message : LmMessage) (handler : LmMessageHandler) :
    Status × LmConnection × List Event :=
  let (id, message1) := request_with_id message gen_id
  let c1 := { connection with id_handlers := g_hash_table_insert connection.id_handlers id handler }
  let (result, ev) := lm_connection_send ext c1 message1
  (result, c1, ev)

/-! ## Routing -/

/-- The guarded call `if (cb && cb->func) (* cb->func) (connection, result,
cb->user_data)` made on a result callback slot. -/
def call_result_function (cb : Option LmCallback) (result : Bool) : List Event :=
  match cb with
  | some cb =>
    match cb.func with
    | some f => [Event.result_cb f result cb.user_data]
    | none => []
  | none => []

/-- Embedding of `connection_stream_received`. -/
def connection_stream_received (connection : LmConnection) (m : LmMessage) :
    LmConnection × List Event :=
  let c1 := { connection with stream_id := lm_message_node_get_attribute m.node "id" }
  let result := true
  let ev := call_result_function c1.open_cb result
  ({ c1 with open_cb := none }, ev ++ _lm_utils_free_callback c1.open_cb)

/-- Embedding of `connection_auth_reply`, the reply handler of `lm_connection_authenticate`.
A reply without `type` attribute hands `NULL` to `strcmp`: no result. -/
def connection_auth_reply (connection : LmConnection) (m : LmMessage) :
    Option (LmHandlerResult × LmConnection × List Event) :=
  match lm_message_node_get_attribute m.node "type" with
  | none => none
  | some type =>
    let result :=
      if type = "result" then true
      else if type = "error" then false
      else true
    let ev := call_result_function connection.auth_cb result
    some (.LM_HANDLER_RESULT_REMOVE_MESSAGE, { connection with auth_cb := none },
      ev ++ _lm_utils_free_callback connection.auth_cb)

/-- Modelled from the spec: `_lm_message_handler_handle_message`: runs the
handler's function on the stanza and hands back its verdict. -/
def _lm_message_handler_handle_message (handler : LmMessageHandler) (connection : LmConnection)
    (m : LmMessage) : Option (LmHandlerResult × LmConnection × List Event) :=
  match handler.function with
  | .user verdict => some (verdict m, connection, [Event.handler handler.addr m])
  | .connection_auth_reply =>
    match connection_auth_reply connection m with
    | some (result, c1, ev) => some (result, c1, Event.handler handler.addr m :: ev)
    | none => none

/-- The `for` loop of `connection_handle_message` over a type chain: it goes on
while entries are left and the last verdict allows more handlers. -/
def handlers_loop (m : LmMessage) :
    List HandlerData → LmHandlerResult → LmConnection →
      Option (LmHandlerResult × LmConnection × List Event)
  | [], result, connection => some (result, connection, [])
  | hd :: l, result, connection =>
    if result = .LM_HANDLER_RESULT_ALLOW_MORE_HANDLERS then
      match _lm_message_handler_handle_message hd.handler connection m with
      | some (result1, c1, ev1) =>
        match handlers_loop m l result1 c1 with
        | some (result2, c2, ev2) => some (result2, c2, ev1 ++ ev2)
        | none => none
      | none => none
    else some (result, connection, [])

/-- The correlation step of `connection_handle_message`: the handler entered
under the stanza's id, if any, is run and its entry removed. -/
def id_handler_step (connection : LmConnection) (m : LmMessage) :
    Option (LmHandlerResult × LmConnection × List Event) :=
  match lm_message_node_get_attribute m.node "id" with
  | some id =>
    match g_hash_table_lookup connection.id_handlers id with
    | some handler =>
      match _lm_message_handler_handle_message handler connection m with
      | some (result, c1, ev) =>
        some (result, { c1 with id_handlers := g_hash_table_remove c1.id_handlers id }, ev)
      | none => none
    | none => some (.LM_HANDLER_RESULT_ALLOW_MORE_HANDLERS, connection, [])
  | none => some (.LM_HANDLER_RESULT_ALLOW_MORE_HANDLERS, connection, [])

/-- Embedding of `connection_handle_message`. -/
def connection_handle_message (connection : LmConnection) (m : LmMessage) :
    Option (LmConnection × List Event) :=
  if lm_message_get_type m = .LM_MESSAGE_TYPE_STREAM then
    some (connection_stream_received connection m)
  else
    match id_handler_step connection m with
    | none => none
    | some (result, c1, ev1) =>
      if result = .LM_HANDLER_RESULT_REMOVE_MESSAGE then some (c1, ev1)
      else
        match handlers_loop m (c1.handlers (lm_message_get_type m)) result c1 with
        | some (_, c2, ev2) => some (c2, ev1 ++ ev2)
        | none => none

/-! ## Queue and dispatch source -/

/-- Embedding of `connection_new_message_cb`, the parser callback. -/
def connection_new_message_cb (connection : LmConnection) (m : LmMessage) :
    LmConnection × List Event :=
  ({ connection with incoming_messages := connection.incoming_messages ++ [m] }, [])

/-- Embedding of `connection_incoming_prepare`: the source is ready when the queue is not
empty. -/
def connection_incoming_prepare (connection : LmConnection) : Bool :=
  !connection.incoming_messages.isEmpty

/-- Embedding of `connection_incoming_dispatch`: pops the head of the queue, if any, and
routes it. -/
def connection_incoming_dispatch (connection : LmConnection) :
    Option (LmConnection × List Event) :=
  match connection.incoming_messages with
  | [] => some (connection, [])
  | m :: rest => connection_handle_message { connection with incoming_messages := rest } m

/-! ## Lifecycle and readiness callbacks -/

/-- Embedding of `connection_do_open`: resolves, connects, stores the channel, marks the
connection open and sends the XML declaration. -/
def connection_do_open (sock : SocketOutcome) (connection : LmConnection) :
    Status × LmConnection × List Event :=
  match sock with
  | .gethostbyname_failed =>
    (Status.fail .LM_ERROR_CONNECTION_OPEN "gethostbyname() failed", connection, [])
  | .connect_failed =>
    (Status.fail .LM_ERROR_CONNECTION_OPEN "connect() failed", connection, [])
  | .connected fd =>
    let c1 := { connection with io_channel := some fd, is_open := true }
    let (result, ev) := connection_send c1 "<?xml version=\x271.0\x27 encoding=\x27UTF-8\x27?>"
    (result, c1, ev)

/-- Embedding of `connection_do_close`. -/
def connection_do_close (connection : LmConnection) : LmConnection :=
  { connection with io_channel := none, is_open := false }

/-- Embedding of `connection_signal_disconnect`: runs the disconnect callback, if one with a
function is stored; the slot is kept. -/
def connection_signal_disconnect (connection : LmConnection) (reason : LmDisconnectReason) :
    List Event :=
  match connection.disconnect_cb with
  | some cb =>
    match cb.func with
    | some f => [Event.disconnect_cb f reason cb.user_data]
    | none => []
  | none => []

/-- Modelled from the spec: `lm_parser_parse`: the stanzas completed by the
bytes fed are handed, one by one, to the parser callback. -/
def lm_parser_parse (connection : LmConnection) (stanzas : List LmMessage) : LmConnection :=
  stanzas.foldl (fun c m => (connection_new_message_cb c m).1) connection

/-- Embedding of `connection_in_event`: without channel nothing is read; otherwise the bytes
read are fed to the parser, `stanzas` being what they complete. -/
def connection_in_event (connection : LmConnection) (stanzas : List LmMessage) : LmConnection :=
  match connection.io_channel with
  | none => connection
  | some _ => lm_parser_parse connection stanzas

/-- Embedding of `connection_error_event`. -/
def connection_error_event (connection : LmConnection) : LmConnection × List Event :=
  let c1 := connection_do_close connection
  (c1, connection_signal_disconnect c1 .LM_DISCONNECT_REASON_ERROR)

/-- Embedding of `connection_hup_event`. -/
def connection_hup_event (connection : LmConnection) : LmConnection × List Event :=
  let c1 := connection_do_close connection
  (c1, connection_signal_disconnect c1 .LM_DISCONNECT_REASON_HUP)

/-- A readiness callback of the connection's channel that one loop iteration
dispatches; `in_event` carries the stanzas the bytes read complete. -/
inductive ReadyCallback
  | in_event (stanzas : List LmMessage)
  | error_event
  | hup_event

/-- One `g_main_context_iteration` while the dispatch source is detached: the
watches listed run in order. -/
def g_main_context_iteration (connection : LmConnection) :
    List ReadyCallback → LmConnection × List Event
  | [] => (connection, [])
  | .in_event stanzas :: rest => g_main_context_iteration (connection_in_event connection stanzas) rest
  | .error_event :: rest =>
    let (c1, ev1) := connection_error_event connection
    let (c2, ev2) := g_main_context_iteration c1 rest
    (c2, ev1 ++ ev2)
  | .hup_event :: rest =>
    let (c1, ev1) := connection_hup_event connection
    let (c2, ev2) := g_main_context_iteration c1 rest
    (c2, ev1 ++ ev2)

/-- The stream header stanza built by `lm_connection_open` and
`lm_connection_open_and_block`. -/
def stream_header (connection : LmConnection) : LmMessage :=
  let m := lm_message_new connection.server .LM_MESSAGE_TYPE_STREAM
  let node := lm_message_node_set_attributes m.node
    [("xmlns:stream", "http://etherx.jabber.org/streams"), ("xmlns", "jabber:client")]
  { m with node := node }

/-- Embedding of `lm_connection_open`. -/
def lm_connection_open (ext : Collaborators) (sock : SocketOutcome) (connection : LmConnection)
    (function : Option Nat) (user_data : Nat) (notify : Option Nat) :
    Status × LmConnection × List Event :=
  if lm_connection_is_open connection then
    (Status.fail .LM_ERROR_CONNECTION_NOT_OPEN
      "Connection is already open, call lm_connection_close() first", connection, [])
  else if connection.server.isNone then
    (Status.fail .LM_ERROR_CONNECTION_OPEN
      "You need to set the server hostname in the call to lm_connection_new()", connection, [])
  else
    let c1 := { connection with open_cb := some (_lm_utils_new_callback function user_data notify) }
    let (opened, c2, ev1) := connection_do_open sock c1
    if !opened.1 then (opened, c2, ev1)
    else
      let m := stream_header c2
      let (result, ev2) := lm_connection_send ext c2 m
      (result, c2, ev1 ++ ev2)

/-- The `while (!finished)` loop of `lm_connection_open_and_block`; the list is
the schedule of loop iterations still to come, and when it is used up before a
stream stanza shows at the tail the call never returns. -/
def open_and_block_loop :
    List (List ReadyCallback) → LmConnection → Nat → Option (Bool × LmConnection × List Event)
  | [], _, _ => none
  | iteration :: rest, connection, last_len =>
    let (c1, ev1) := g_main_context_iteration connection iteration
    let len := c1.incoming_messages.length
    if len > last_len then
      match c1.incoming_messages.getLast? with
      | none => none
      | some m =>
        if lm_message_get_type m = .LM_MESSAGE_TYPE_STREAM then
          some (true,
            { c1 with stream_id := lm_message_node_get_attribute m.node "id",
                      incoming_messages := c1.incoming_messages.dropLast }, ev1)
        else
          match open_and_block_loop rest c1 len with
          | some (ret_val, c2, ev2) => some (ret_val, c2, ev1 ++ ev2)
          | none => none
    else
      match open_and_block_loop rest c1 last_len with
      | some (ret_val, c2, ev2) => some (ret_val, c2, ev1 ++ ev2)
      | none => none

/-- Embedding of `lm_connection_open_and_block`; `schedule` lists the loop iterations that
follow the sending of the stream header. -/
def lm_connection_open_and_block (ext : Collaborators) (sock : SocketOutcome)
    (schedule : List (List ReadyCallback)) (connection : LmConnection) :
    Option (Status × LmConnection × List Event) :=
  if lm_connection_is_open connection then
    some (Status.fail .LM_ERROR_CONNECTION_NOT_OPEN
      "Connection is already open, call lm_connection_close() first", connection, [])
  else if connection.server.isNone then
    some (Status.fail .LM_ERROR_CONNECTION_OPEN
      "You need to set the server hostname in the call to lm_connection_new()", connection, [])
  else
    let (opened, c1, ev1) := connection_do_open sock connection
    if !opened.1 then some (opened, c1, ev1)
    else
      let m := stream_header c1
      let (_, ev2) := lm_connection_send ext c1 m
      let c2 := { c1 with incoming_source := false }
      match open_and_block_loop schedule c2 0 with
      | none => none
      | some (ret_val, c3, ev3) =>
        some ((ret_val, none), { c3 with incoming_source := true }, ev1 ++ ev2 ++ ev3)

/-- Embedding of `lm_connection_close`. -/
def lm_connection_close (connection : LmConnection) : Status × LmConnection × List Event :=
  if !lm_connection_is_open connection then
    (Status.fail .LM_ERROR_CONNECTION_NOT_OPEN
      "Connection is not open, call lm_connection_open() first", connection, [])
  else
    let (sent, ev1) := connection_send connection "</stream:stream>"
    if !sent.1 then (sent, connection, ev1)
    else
      let c1 := connection_do_close connection
      (Status.success, c1,
        ev1 ++ [Event.flush] ++ connection_signal_disconnect c1 .LM_DISCONNECT_REASON_OK)

/-! ## Blocking request/reply and authentication -/

/-- The `while (!reply)` loop of `lm_connection_send_with_reply_and_block`; the
list is the schedule of loop iterations still to come, and when it is used up
before a reply is picked the call never returns. -/
def send_with_reply_and_block_loop (id : String) :
    List (List ReadyCallback) → LmConnection → Nat →
      Option (LmMessage × LmConnection × List Event)
  | [], _, _ => none
  | iteration :: rest, connection, last_len =>
    let (c1, ev1) := g_main_context_iteration connection iteration
    let len := c1.incoming_messages.length
    if len > last_len then
      match c1.incoming_messages.getLast? with
      | none => none
      | some m =>
        let m_id := lm_message_node_get_attribute m.node "id"
        let c2 := { c1 with incoming_messages := c1.incoming_messages.dropLast }
        if m_id = some id then some (m, c2, ev1)
        else
          match send_with_reply_and_block_loop id rest c2 len with
          | some (reply, c3, ev3) => some (reply, c3, ev1 ++ ev3)
          | none => none
    else
      match send_with_reply_and_block_loop id rest c1 last_len with
      | some (reply, c3, ev3) => some (reply, c3, ev1 ++ ev3)
      | none => none

/-- Embedding of `lm_connection_send_with_reply_and_block`; `gen_id` is what
`_lm_utils_generate_id` returns, `schedule` lists the loop iterations that
follow the sending of the request. -/
def lm_connection_send_with_reply_and_block (ext : Collaborators) (gen_id : String)
    (schedule : List (List ReadyCallback)) (connection : LmConnection) (message : LmMessage) :
    Option (LmMessage × LmConnection × List Event) :=
  let (id, message1) := request_with_id message gen_id
  let c1 := { connection with incoming_source := false }
  let (_, ev1) := lm_connection_send ext c1 message1
  match send_with_reply_and_block_loop id schedule c1 0 with
  | none => none
  | some (reply, c2, ev2) => some (reply, { c2 with incoming_source := true }, ev1 ++ ev2)

/-- The authentication request both authenticate calls build: an `iq` of
sub-type `set` with a `query` child in the legacy namespace holding username,
digest and resource. -/
def auth_request (ext : Collaborators) (stream_id username password resource : String) :
    LmMessage :=
  let m := lm_message_new_with_sub_type none .LM_MESSAGE_TYPE_IQ .LM_MESSAGE_SUB_TYPE_SET
  let q0 : LmMessageNode := .mk "query" none [] []
  let q1 := lm_message_node_set_attributes q0 [("xmlns", "jabber:iq:auth")]
  let q2 := lm_message_node_add_child q1 "username" (some username)
  let str := stream_id ++ password
  let digest := ext.lm_sha_hash str
  let q3 := lm_message_node_add_child q2 "digest" (some digest)
  let q4 := lm_message_node_add_child q3 "resource" (some resource)
  { m with node := lm_message_node_attach m.node q4 }

/-- Embedding of `lm_connection_authenticate`; `handler_addr` is the address of the handler
object it allocates, `gen_id` what `_lm_utils_generate_id` returns.  Without a
stream id `g_strconcat` yields `NULL` and there is nothing to hash: no result. -/
def lm_connection_authenticate (ext : Collaborators) (gen_id : String) (handler_addr : Nat)
    (connection : LmConnection) (username password resource : String)
    (function : Option Nat) (user_data : Nat) (notify : Option Nat) :
    Option (Status × LmConnection × List Event) :=
  if !lm_connection_is_open connection then
    some (Status.fail .LM_ERROR_CONNECTION_NOT_OPEN
      "Connection is not open, call lm_connection_open() first", connection, [])
  else
    let c1 := { connection with auth_cb := some (_lm_utils_new_callback function user_data notify) }
    match c1.stream_id with
    | none => none
    | some stream_id =>
      let m := auth_request ext stream_id username password resource
      let handler : LmMessageHandler :=
        { addr := handler_addr, function := .connection_auth_reply }
      some (lm_connection_send_with_reply ext gen_id c1 m handler)

/-- Embedding of `lm_connection_authenticate_and_block`.  A reply of a sub-type other than
`result` and `error` runs into `g_assert_not_reached`: no result. -/
def lm_connection_authenticate_and_block (ext : Collaborators) (gen_id : String)
    (schedule : List (List ReadyCallback)) (connection : LmConnection)
    (username password resource : String) :
    Option (Status × LmConnection × List Event) :=
  if !lm_connection_is_open connection then
    some (Status.fail .LM_ERROR_CONNECTION_NOT_OPEN
      "Connection is not open, call lm_connection_open() first", connection, [])
  else
    match connection.stream_id with
    | none => none
    | some stream_id =>
      let m := auth_request ext stream_id username password resource
      match lm_connection_send_with_reply_and_block ext gen_id schedule connection m with
      | none => none
      | some (result, c1, ev) =>
        match lm_message_get_sub_type result with
        | .LM_MESSAGE_SUB_TYPE_RESULT => some ((true, none), c1, ev)
        | .LM_MESSAGE_SUB_TYPE_ERROR => some ((false, none), c1, ev)
        | _ => none

/-! ## Handler registry and setters -/

/-- The value a 32-bit `gint` takes for an integer result: the result reduced
modulo 2^32 into the range from -2^31 to 2^31 - 1. -/
def to_gint (x : Int) : Int :=
  (x + 2147483648) % 4294967296 - 2147483648

/-- Embedding of `connection_handler_compare_func`: the difference of the two
priorities as the 32-bit `gint` the function returns. -/
def connection_handler_compare_func (a b : HandlerData) : Int :=
  to_gint (b.priority - a.priority)

/-- Embedding of `lm_connection_register_message_handler`. -/
def lm_connection_register_message_handler (connection : LmConnection)
    (handler : LmMessageHandler) (type : LmMessageType) (priority : Int) : LmConnection :=
  let hd : HandlerData := { priority := priority, handler := handler }
  { connection with
    handlers := Function.update connection.handlers type
      (g_slist_insert_sorted (connection.handlers type) hd connection_handler_compare_func) }

/-- The loop of `lm_connection_unregister_message_handler`: unlinks the first
entry whose handler is the given object. -/
def unregister_loop (handler : LmMessageHandler) : List HandlerData → List HandlerData
  | [] => []
  | hd :: l =>
    if hd.handler.addr = handler.addr then l
    else hd :: unregister_loop handler l

/-- Embedding of `lm_connection_unregister_message_handler`. -/
def lm_connection_unregister_message_handler (connection : LmConnection)
    (handler : LmMessageHandler) (type : LmMessageType) : LmConnection :=
  { connection with
    handlers := Function.update connection.handlers type
      (unregister_loop handler (connection.handlers type)) }

/-- Embedding of `lm_connection_set_server`. -/
def lm_connection_set_server (connection : LmConnection) (server : Option String) :
    LmConnection :=
  if lm_connection_is_open connection then connection
  else { connection with server := server }

/-- Embedding of `lm_connection_set_port`. -/
def lm_connection_set_port (connection : LmConnection) (port : Nat) : LmConnection :=
  if lm_connection_is_open connection then connection
  else { connection with port := port }

/-- Embedding of `lm_connection_set_use_ssl`. -/
def lm_connection_set_use_ssl (connection : LmConnection) (use_ssl : Bool) : LmConnection :=
  if lm_connection_is_open connection then connection
  else { connection with use_ssl := use_ssl }

/-- Embedding of `lm_connection_set_disconnect_function`: a callback stored before is
destructed, the new one takes the slot. -/
def lm_connection_set_disconnect_function (connection : LmConnection)
    (function : Option Nat) (user_data : Nat) (notify : Option Nat) :
    LmConnection × List Event :=
  ({ connection with
      disconnect_cb := some (_lm_utils_new_callback function user_data notify) },
    _lm_utils_free_callback connection.disconnect_cb)

/-- Embedding of `lm_connection_ref`. -/
def lm_connection_ref (connection : LmConnection) : LmConnection :=
  { connection with ref_count := connection.ref_count + 1 }

/-! ## Definitions used to state the properties -/

/-- The verdict a handler gives on a stanza when its function returns: a user
function's own verdict; `connection_auth_reply` always removes the message. -/
def handler_verdict (h : LmMessageHandler) (m : LmMessage) : LmHandlerResult :=
  match h.function with
  | .user verdict => verdict m
  | .connection_auth_reply => .LM_HANDLER_RESULT_REMOVE_MESSAGE

/-- Whether the handler's function returns on the stanza: user functions are
taken to return, `connection_auth_reply` needs a `type` attribute to compare. -/
def handler_returns (h : LmMessageHandler) (m : LmMessage) : Bool :=
  match h.function with
  | .user _ => true
  | .connection_auth_reply => (lm_message_node_get_attribute m.node "type").isSome

/-- The handler invocations among the events, in order: address of the handler
object and the stanza handed to it. -/
def invoked : List Event → List (Nat × LmMessage)
  | [] => []
  | .handler addr m :: rest => (addr, m) :: invoked rest
  | _ :: rest => invoked rest

/-- The handler entered in the correlation map under the stanza's id, if the
stanza has an id and the map has that key. -/
def id_handler_of (c : LmConnection) (m : LmMessage) : Option LmMessageHandler :=
  match lm_message_node_get_attribute m.node "id" with
  | some id => g_hash_table_lookup c.id_handlers id
  | none => none

/-- Routing as the specification words it, for a type chain: the handlers in
chain order up to and including the first one that returns CONSUME, the whole
chain if none does. -/
def spec_chain_walk (m : LmMessage) : List HandlerData → List LmMessageHandler
  | [] => []
  | hd :: l =>
    if handler_verdict hd.handler m = .LM_HANDLER_RESULT_REMOVE_MESSAGE then [hd.handler]
    else hd.handler :: spec_chain_walk m l

/-- Routing as the specification words it, for a stanza that is not of the
stream type: first the correlation handler, if any; then, unless it returned
CONSUME, the walk of the stanza type's chain. -/
def spec_routing (c : LmConnection) (m : LmMessage) : List LmMessageHandler :=
  match id_handler_of c m with
  | some h =>
    if handler_verdict h m = .LM_HANDLER_RESULT_REMOVE_MESSAGE then [h]
    else h :: spec_chain_walk m (c.handlers (lm_message_get_type m))
  | none => spec_chain_walk m (c.handlers (lm_message_get_type m))

/-- A sequence of `lm_connection_register_message_handler` calls for one stanza
type, in the order given. -/
def register_all (c : LmConnection) (type : LmMessageType) :
    List (LmMessageHandler × Int) → LmConnection
  | [] => c
  | r :: rest =>
    register_all (lm_connection_register_message_handler c r.1 type r.2) type rest

/-- Number of times the handler object at `addr` is invoked among the events. -/
def invocations_of (addr : Nat) (ev : List Event) : Nat :=
  ((invoked ev).filter (fun p => p.1 == addr)).length

/-- The result callbacks run among the events, in order: function address,
result handed over, user data. -/
def result_calls : List Event → List (Nat × Bool × Nat)
  | [] => []
  | .result_cb func result user_data :: rest => (func, result, user_data) :: result_calls rest
  | _ :: rest => result_calls rest

/-- Successive runs of the dispatch source: `n` calls of
`connection_incoming_dispatch`, their events in order. -/
def dispatch_steps : Nat → LmConnection → Option (LmConnection × List Event)
  | 0, c => some (c, [])
  | n + 1, c =>
    match connection_incoming_dispatch c with
    | none => none
    | some (c1, ev1) =>
      match dispatch_steps n c1 with
      | none => none
      | some (c2, ev2) => some (c2, ev1 ++ ev2)

/-- The stanzas of a list handed to `connection_handle_message` one after the
other, in list order, their events in order. -/
def handle_all : LmConnection → List LmMessage → Option (LmConnection × List Event)
  | c, [] => some (c, [])
  | c, m :: rest =>
    match connection_handle_message c m with
    | none => none
    | some (c1, ev1) =>
      match handle_all c1 rest with
      | none => none
      | some (c2, ev2) => some (c2, ev1 ++ ev2)

/-- The disconnect callbacks run among the events, in order: function address,
reason handed over, user data. -/
def disconnect_calls : List Event → List (Nat × LmDisconnectReason × Nat)
  | [] => []
  | .disconnect_cb func reason user_data :: rest => (func, reason, user_data) :: disconnect_calls rest
  | _ :: rest => disconnect_calls rest

/-- An operation on the connection or an event delivered to it, with the
arguments and outside outcomes it depends on. -/
inductive Operation
  | open (sock : SocketOutcome) (function : Option Nat) (user_data : Nat) (notify : Option Nat)
  | open_and_block (sock : SocketOutcome) (schedule : List (List ReadyCallback))
  | close
  | in_event (stanzas : List LmMessage)
  | error_event
  | hup_event
  | dispatch
  | send (message : LmMessage)
  | send_raw (str : String)
  | send_with_reply (gen_id : String) (message : LmMessage) (handler : LmMessageHandler)
  | send_with_reply_and_block (gen_id : String) (schedule : List (List ReadyCallback))
      (message : LmMessage)
  | authenticate (gen_id : String) (handler_addr : Nat) (username password resource : String)
      (function : Option Nat) (user_data : Nat) (notify : Option Nat)
  | authenticate_and_block (gen_id : String) (schedule : List (List ReadyCallback))
      (username password resource : String)
  | register_message_handler (handler : LmMessageHandler) (type : LmMessageType) (priority : Int)
  | unregister_message_handler (handler : LmMessageHandler) (type : LmMessageType)
  | set_server (server : Option String)
  | set_port (port : Nat)
  | set_use_ssl (use_ssl : Bool)
  | set_disconnect_function (function : Option Nat) (user_data : Nat) (notify : Option Nat)
  | ref

/-- The connection an operation leaves behind; `none` when the call has no
result. -/
def step (ext : Collaborators) : Operation → LmConnection → Option LmConnection
  | .open sock function user_data notify, c =>
    some (lm_connection_open ext sock c function user_data notify).2.1
  | .open_and_block sock schedule, c =>
    (lm_connection_open_and_block ext sock schedule c).map (fun r => r.2.1)
  | .close, c => some (lm_connection_close c).2.1
  | .in_event stanzas, c => some (connection_in_event c stanzas)
  | .error_event, c => some (connection_error_event c).1
  | .hup_event, c => some (connection_hup_event c).1
  | .dispatch, c => (connection_incoming_dispatch c).map (fun r => r.1)
  | .send _, c => some c
  | .send_raw _, c => some c
  | .send_with_reply gen_id message handler, c =>
    some (lm_connection_send_with_reply ext gen_id c message handler).2.1
  | .send_with_reply_and_block gen_id schedule message, c =>
    (lm_connection_send_with_reply_and_block ext gen_id schedule c message).map (fun r => r.2.1)
  | .authenticate gen_id handler_addr username password resource function user_data notify, c =>
    (lm_connection_authenticate ext gen_id handler_addr c username password resource
      function user_data notify).map (fun r => r.2.1)
  | .authenticate_and_block gen_id schedule username password resource, c =>
    (lm_connection_authenticate_and_block ext gen_id schedule c username password resource).map
      (fun r => r.2.1)
  | .register_message_handler handler type priority, c =>
    some (lm_connection_register_message_handler c handler type priority)
  | .unregister_message_handler handler type, c =>
    some (lm_connection_unregister_message_handler c handler type)
  | .set_server server, c => some (lm_connection_set_server c server)
  | .set_port port, c => some (lm_connection_set_port c port)
  | .set_use_ssl use_ssl, c => some (lm_connection_set_use_ssl c use_ssl)
  | .set_disconnect_function function user_data notify, c =>
    some (lm_connection_set_disconnect_function c function user_data notify).1
  | .ref, c => some (lm_connection_ref c)

/-- A sequence of operations carried out one after the other. -/
def run (ext : Collaborators) : List Operation → LmConnection → Option LmConnection
  | [], c => some c
  | op :: rest, c =>
    match step ext op c with
    | none => none
    | some c1 => run ext rest c1

/-- Whether an operation is one of the two that take a stream stanza off the
queue: a dispatch step or `lm_connection_open_and_block`. -/
def takes_stream_stanza : Operation → Bool
  | .dispatch => true
  | .open_and_block _ _ => true
  | _ => false

/-- The stanzas completed by the `in_event` callbacks of one loop iteration. -/
def arrived : List ReadyCallback → List LmMessage
  | [] => []
  | .in_event stanzas :: rest => stanzas ++ arrived rest
  | _ :: rest => arrived rest

/-- Whether a loop iteration dispatches neither the error nor the hangup
callback. -/
def no_disconnect : List ReadyCallback → Bool
  | [] => true
  | .in_event _ :: rest => no_disconnect rest
  | _ :: _ => false

/-- The stanzas completed by a run of loop iterations, in arrival order. -/
def arrived_all : List (List ReadyCallback) → List LmMessage
  | [] => []
  | iteration :: rest => arrived iteration ++ arrived_all rest

/-- What firing the disconnect slot of `c` once with `reason` comes to: one call
of the stored function, none when no function is stored. -/
def fired_once (c : LmConnection) (reason : LmDisconnectReason) :
    List (Nat × LmDisconnectReason × Nat) :=
  match c.disconnect_cb with
  | some cb =>
    match cb.func with
    | some f => [(f, reason, cb.user_data)]
    | none => []
  | none => []

/-- What every operation keeps: the connection is open exactly when it holds a
channel, and it is not marked authenticated. -/
def lifecycle_inv (c : LmConnection) : Prop :=
  c.is_open = c.io_channel.isSome ∧ c.is_authenticated = false

/-- What running a result callback slot once with `result` comes to: one call of
the stored function, none when no function is stored. -/
def called_once (cb : Option LmCallback) (result : Bool) : List (Nat × Bool × Nat) :=
  match cb with
  | some cb =>
    match cb.func with
    | some f => [(f, result, cb.user_data)]
    | none => []
  | none => []

/-- The authentication request as the specification describes it, with the id
it is sent under: an `iq` of sub-type `set` whose `query` child carries the
namespace `jabber:iq:auth` and the children `username`, `digest` and
`resource`, the text of `digest` being the hash of stream id and password put
together. -/
def spec_auth_stanza (ext : Collaborators) (id sid username password resource : String) :
    LmMessage :=
  { type := .LM_MESSAGE_TYPE_IQ
    sub_type := .LM_MESSAGE_SUB_TYPE_SET
    node := .mk "iq" none [("type", "set"), ("id", id)]
      [ .mk "query" none [("xmlns", "jabber:iq:auth")]
          [ .mk "username" (some username) [] [],
            .mk "digest" (some (ext.lm_sha_hash (sid ++ password))) [] [],
            .mk "resource" (some resource) [] [] ] ] }

/-! ## Concrete objects used in the examples -/

/-- Collaborators of the examples: a node is serialised to its name, the
digest of a text is the text itself. -/
def demo_ext : Collaborators :=
  { lm_message_node_to_string := fun n => n.name, lm_sha_hash := fun s => s }

/-- A stanza of the given type and sub-type with root element `name` and the
given attributes. -/
def demo_stanza (type : LmMessageType) (sub_type : LmMessageSubType) (name : String)
    (attributes : List (String × String)) : LmMessage :=
  { type := type, sub_type := sub_type, node := .mk name none attributes [] }

/-- A user handler at address `addr` giving the same verdict on every stanza. -/
def demo_handler (addr : Nat) (verdict : LmHandlerResult) : LmMessageHandler :=
  { addr := addr, function := .user (fun _ => verdict) }

/-- An open connection to `example.org` on channel 3 with stream id `abc123`. -/
def demo_open : LmConnection :=
  { lm_connection_new (some "example.org") with
    is_open := true, io_channel := some 3, stream_id := some "abc123" }

/-- The `iq` reply `<iq id="q1" type="result"/>`. -/
def demo_reply : LmMessage :=
  demo_stanza .LM_MESSAGE_TYPE_IQ .LM_MESSAGE_SUB_TYPE_RESULT "iq"
    [("id", "q1"), ("type", "result")]

/-- An open connection whose correlation map holds handler 10 under `q1` and
whose `iq` chain holds handlers 1, 2 and 3, the second of which consumes. -/
def demo_routed : LmConnection :=
  { demo_open with
    id_handlers := [("q1", demo_handler 10 .LM_HANDLER_RESULT_ALLOW_MORE_HANDLERS)],
    handlers := fun t =>
      if t = .LM_MESSAGE_TYPE_IQ then
        [ { priority := 3, handler := demo_handler 1 .LM_HANDLER_RESULT_ALLOW_MORE_HANDLERS },
          { priority := 2, handler := demo_handler 2 .LM_HANDLER_RESULT_REMOVE_MESSAGE },
          { priority := 1, handler := demo_handler 3 .LM_HANDLER_RESULT_ALLOW_MORE_HANDLERS } ]
      else [] }

/-- The request `<iq id="q1" type="get"/>`. -/
def demo_request : LmMessage :=
  demo_stanza .LM_MESSAGE_TYPE_IQ .LM_MESSAGE_SUB_TYPE_GET "iq" [("id", "q1"), ("type", "get")]

/-- An open connection whose `iq` chain holds the handler object 7, which
allows more handlers. -/
def demo_shared : LmConnection :=
  { demo_open with
    handlers := fun t =>
      if t = .LM_MESSAGE_TYPE_IQ then
        [ { priority := 2, handler := demo_handler 7 .LM_HANDLER_RESULT_ALLOW_MORE_HANDLERS } ]
      else [] }

/-- The stream stanza `<stream:stream id="abc123"/>`. -/
def demo_stream : LmMessage :=
  demo_stanza .LM_MESSAGE_TYPE_STREAM .LM_MESSAGE_SUB_TYPE_NOT_SET "stream:stream"
    [("id", "abc123")]

/-- An open connection waiting for the stream stanza: the open slot holds the
callback 100 with user data 5 and destructor 101, the correlation map has the
key `abc123` and a handler is registered for the stream type. -/
def demo_awaiting : LmConnection :=
  { lm_connection_new (some "example.org") with
    is_open := true, io_channel := some 3,
    open_cb := some { func := some 100, user_data := 5, notify := some 101 },
    id_handlers := [("abc123", demo_handler 10 .LM_HANDLER_RESULT_ALLOW_MORE_HANDLERS)],
    handlers := fun t =>
      if t = .LM_MESSAGE_TYPE_STREAM then
        [ { priority := 2, handler := demo_handler 1 .LM_HANDLER_RESULT_ALLOW_MORE_HANDLERS } ]
      else [] }

/-- The unrelated stanza `<message id="x1"/>`. -/
def demo_other : LmMessage :=
  demo_stanza .LM_MESSAGE_TYPE_MESSAGE .LM_MESSAGE_SUB_TYPE_NOT_SET "message" [("id", "x1")]

/-- A second stanza with id `q1`: `<iq id="q1" type="error"/>`. -/
def demo_reply_late : LmMessage :=
  demo_stanza .LM_MESSAGE_TYPE_IQ .LM_MESSAGE_SUB_TYPE_ERROR "iq"
    [("id", "q1"), ("type", "error")]

/-- A stanza queued before a blocking call: `<message id="a1"/>`. -/
def demo_queued : LmMessage :=
  demo_stanza .LM_MESSAGE_TYPE_MESSAGE .LM_MESSAGE_SUB_TYPE_NOT_SET "message" [("id", "a1")]

/-- An open connection whose disconnect slot holds the callback 200 with user
data 9. -/
def demo_watched : LmConnection :=
  { demo_open with disconnect_cb := some { func := some 200, user_data := 9, notify := none } }

/-- A session on a new connection to `example.org`: open, the server's stream
stanza arrives and is dispatched, then the connection is closed. -/
def demo_session : List Operation :=
  [ .open (.connected 3) (some 100) 5 none,
    .in_event [demo_stream],
    .dispatch,
    .close ]

/-- An open connection in the middle of an authentication: the authenticate slot
holds the callback 300 with user data 7, the correlation map holds the reply
handler (object 50) under the id `g`, and the `iq` chain holds handler 1. -/
def demo_authing : LmConnection :=
  { demo_open with
    auth_cb := some { func := some 300, user_data := 7, notify := none },
    id_handlers := [("g", { addr := 50, function := .connection_auth_reply })],
    handlers := fun t =>
      if t = .LM_MESSAGE_TYPE_IQ then
        [ { priority := 2, handler := demo_handler 1 .LM_HANDLER_RESULT_ALLOW_MORE_HANDLERS } ]
      else [] }

/-- An `iq` stanza with id `g` whose `type` attribute is the given text. -/
def demo_auth_answer (type : String) (sub_type : LmMessageSubType) : LmMessage :=
  demo_stanza .LM_MESSAGE_TYPE_IQ sub_type "iq" [("id", "g"), ("type", type)]

/-- An open connection whose `iq` chain holds the handler object 1 twice, around
the handler object 2. -/
def demo_twice : LmConnection :=
  { demo_open with
    handlers := fun t =>
      if t = .LM_MESSAGE_TYPE_IQ then
        [ { priority := 3, handler := demo_handler 1 .LM_HANDLER_RESULT_ALLOW_MORE_HANDLERS },
          { priority := 2, handler := demo_handler 2 .LM_HANDLER_RESULT_ALLOW_MORE_HANDLERS },
          { priority := 1, handler := demo_handler 1 .LM_HANDLER_RESULT_ALLOW_MORE_HANDLERS } ]
      else [] }

/-! ## Text search -/

theorem strstr_none_absent (needle : List Char) :
    ∀ hay : List Char, strstr hay needle = none → ¬ needle <:+: hay := by
  intro hay
  induction hay with
  | nil =>
    intro h hin
    have hn : needle = [] := List.eq_nil_of_infix_nil hin
    subst hn
    simp [strstr] at h
  | cons c t ih =>
    intro h hin
    unfold strstr at h
    split at h
    · simp at h
    · rename_i hp
      have ht : strstr t needle = none := by simpa using h
      rcases List.infix_cons_iff.mp hin with h1 | h2
      · exact hp (List.isPrefixOf_iff_prefix.mpr h1)
      · exact ih ht h2

theorem strstr_some_take_absent (needle : List Char) (hne : needle ≠ []) :
    ∀ (hay : List Char) (i : Nat), strstr hay needle = some i → ¬ needle <:+: hay.take i := by
  intro hay
  induction hay with
  | nil =>
    intro i _ hin
    rw [List.take_nil] at hin
    exact hne (List.eq_nil_of_infix_nil hin)
  | cons c t ih =>
    intro i h hin
    unfold strstr at h
    split at h
    · have hi : i = 0 := by simpa using h.symm
      subst hi
      rw [List.take_zero] at hin
      exact hne (List.eq_nil_of_infix_nil hin)
    · rename_i hp
      cases hs : strstr t needle with
      | none => simp [hs] at h
      | some j =>
        have hi : i = j + 1 := by simpa [hs] using h.symm
        subst hi
        rw [List.take_succ_cons] at hin
        rcases List.infix_cons_iff.mp hin with h1 | h2
        · apply hp
          apply List.isPrefixOf_iff_prefix.mpr
          exact h1.trans ((List.prefix_cons_inj c).mpr (List.take_prefix j t))
        · exact ih j hs h2

theorem strstr_some_occurs (needle : List Char) :
    ∀ (hay : List Char) (i : Nat), strstr hay needle = some i → needle <:+: hay := by
  intro hay
  induction hay with
  | nil =>
    intro i h
    unfold strstr at h
    split at h
    · rename_i hp
      exact (List.isPrefixOf_iff_prefix.mp hp).isInfix
    · simp at h
  | cons c t ih =>
    intro i h
    unfold strstr at h
    split at h
    · rename_i hp
      exact (List.isPrefixOf_iff_prefix.mp hp).isInfix
    · cases hs : strstr t needle with
      | none => simp [hs] at h
      | some j => exact List.infix_cons (ih j hs)

/-! ## Routing -/

theorem invoked_append (e1 e2 : List Event) : invoked (e1 ++ e2) = invoked e1 ++ invoked e2 := by
  induction e1 with
  | nil => rfl
  | cons e rest ih => cases e <;> simp [invoked, ih]

theorem invoked_free_callback (cb : Option LmCallback) : invoked (_lm_utils_free_callback cb) = [] := by
  rcases cb with _ | ⟨f, ud, n⟩
  · rfl
  · cases n <;> rfl

theorem invoked_call_result_function (cb : Option LmCallback) (result : Bool) :
    invoked (call_result_function cb result) = [] := by
  rcases cb with _ | ⟨f, ud, n⟩
  · rfl
  · cases f <;> rfl

/-- A handler whose function returns hands back its verdict, is logged once and
leaves everything but the authenticate slot as it was. -/
theorem handle_message_one (h : LmMessageHandler) (c : LmConnection) (m : LmMessage)
    (hret : handler_returns h m = true) :
    ∃ a ev, _lm_message_handler_handle_message h c m
        = some (handler_verdict h m, { c with auth_cb := a }, ev) ∧
      invoked ev = [(h.addr, m)] := by
  unfold _lm_message_handler_handle_message handler_verdict
  unfold handler_returns at hret
  cases hf : h.function with
  | user verdict => exact ⟨c.auth_cb, _, rfl, rfl⟩
  | connection_auth_reply =>
    rw [hf] at hret
    simp only at hret
    obtain ⟨t, ht⟩ := Option.isSome_iff_exists.mp hret
    refine ⟨none, Event.handler h.addr m ::
      (call_result_function c.auth_cb (if t = "result" then true else if t = "error" then false else true)
        ++ _lm_utils_free_callback c.auth_cb), ?_, ?_⟩
    · simp only [connection_auth_reply, ht]
    · simp [invoked, invoked_append, invoked_free_callback, invoked_call_result_function]

theorem handlers_loop_spec (m : LmMessage) :
    ∀ (l : List HandlerData) (c : LmConnection),
      (∀ h ∈ spec_chain_walk m l, handler_returns h m = true) →
      ∃ r a ev, handlers_loop m l .LM_HANDLER_RESULT_ALLOW_MORE_HANDLERS c
          = some (r, { c with auth_cb := a }, ev) ∧
        invoked ev = (spec_chain_walk m l).map (fun h => (h.addr, m)) := by
  intro l
  induction l with
  | nil =>
    intro c _
    exact ⟨_, c.auth_cb, [], rfl, rfl⟩
  | cons hd l ih =>
    intro c hret
    have hhd : handler_returns hd.handler m = true := by
      apply hret
      unfold spec_chain_walk
      split <;> simp
    obtain ⟨a, ev, hone, hinv⟩ := handle_message_one hd.handler c m hhd
    cases hv : handler_verdict hd.handler m with
    | LM_HANDLER_RESULT_REMOVE_MESSAGE =>
      refine ⟨.LM_HANDLER_RESULT_REMOVE_MESSAGE, a, ev ++ [], ?_, ?_⟩
      · simp only [handlers_loop, hone, hv, if_true]
        cases l <;> simp [handlers_loop]
      · simp [spec_chain_walk, hv, hinv]
    | LM_HANDLER_RESULT_ALLOW_MORE_HANDLERS =>
      have hrest : ∀ h ∈ spec_chain_walk m l, handler_returns h m = true := by
        intro h hh
        apply hret
        simp [spec_chain_walk, hv, hh]
      obtain ⟨r, a2, ev2, hloop, hinv2⟩ := ih { c with auth_cb := a } hrest
      refine ⟨r, a2, ev ++ ev2, ?_, ?_⟩
      · simp only [handlers_loop, hone, hv, if_true, hloop]
      · simp [spec_chain_walk, hv, invoked_append, hinv, hinv2]

theorem verdict_allow_of_ne (r : LmHandlerResult)
    (h : r ≠ .LM_HANDLER_RESULT_REMOVE_MESSAGE) : r = .LM_HANDLER_RESULT_ALLOW_MORE_HANDLERS := by
  cases r
  · exact absurd rfl h
  · rfl

theorem spec_chain_walk_dropLast (m : LmMessage) :
    ∀ l : List HandlerData, ∀ h ∈ (spec_chain_walk m l).dropLast,
      handler_verdict h m = .LM_HANDLER_RESULT_ALLOW_MORE_HANDLERS := by
  intro l
  induction l with
  | nil => intro h hh; simp [spec_chain_walk] at hh
  | cons hd l ih =>
    intro h hh
    unfold spec_chain_walk at hh
    split at hh
    · simp at hh
    · rename_i hv
      cases hw : spec_chain_walk m l with
      | nil => simp [hw] at hh
      | cons x xs =>
        rw [hw, List.dropLast_cons₂] at hh
        rcases List.mem_cons.mp hh with h1 | h2
        · rw [h1]; exact verdict_allow_of_ne _ hv
        · exact ih h (by rw [hw]; exact h2)

theorem spec_routing_dropLast (c : LmConnection) (m : LmMessage) :
    ∀ h ∈ (spec_routing c m).dropLast,
      handler_verdict h m = .LM_HANDLER_RESULT_ALLOW_MORE_HANDLERS := by
  intro h hh
  unfold spec_routing at hh
  split at hh
  · split at hh
    · simp at hh
    · rename_i h0 _ hv
      cases hw : spec_chain_walk m (c.handlers (lm_message_get_type m)) with
      | nil => simp [hw] at hh
      | cons x xs =>
        rw [hw, List.dropLast_cons₂] at hh
        rcases List.mem_cons.mp hh with h1 | h2
        · rw [h1]; exact verdict_allow_of_ne _ hv
        · exact spec_chain_walk_dropLast m _ h (by rw [hw]; exact h2)
  · exact spec_chain_walk_dropLast m _ h hh

/-- The routing of a stanza that is not of the stream type, when every handler
it reaches returns: the stanza is handled, the handlers run are those of
`spec_routing` in that order, and all that changes is the authenticate slot and
the correlation entry under the stanza's id. -/
theorem handle_message_shape (c : LmConnection) (m : LmMessage)
    (hns : lm_message_get_type m ≠ .LM_MESSAGE_TYPE_STREAM)
    (hret : ∀ h ∈ spec_routing c m, handler_returns h m = true) :
    ∃ a ev, connection_handle_message c m =
        some ({ c with
                auth_cb := a,
                id_handlers :=
                  match lm_message_node_get_attribute m.node "id", id_handler_of c m with
                  | some id, some _ => g_hash_table_remove c.id_handlers id
                  | _, _ => c.id_handlers }, ev) ∧
      invoked ev = (spec_routing c m).map (fun h => (h.addr, m)) := by
  unfold connection_handle_message
  rw [if_neg hns]
  unfold spec_routing at hret ⊢
  unfold id_handler_step
  unfold id_handler_of at hret ⊢
  cases hid : lm_message_node_get_attribute m.node "id" with
  | none =>
    simp only [hid] at hret ⊢
    obtain ⟨r, a, ev, hloop, hinv⟩ := handlers_loop_spec m _ c hret
    refine ⟨a, [] ++ ev, ?_, ?_⟩
    · simp [hloop]
    · simpa using hinv
  | some id =>
    simp only [hid] at hret ⊢
    cases hl : g_hash_table_lookup c.id_handlers id with
    | none =>
      simp only [hl] at hret ⊢
      obtain ⟨r, a, ev, hloop, hinv⟩ := handlers_loop_spec m _ c hret
      refine ⟨a, [] ++ ev, ?_, ?_⟩
      · simp [hloop]
      · simpa using hinv
    | some h0 =>
      simp only [hl] at hret ⊢
      have h0ret : handler_returns h0 m = true := by
        apply hret
        split <;> simp
      obtain ⟨a0, ev0, hone, hinv0⟩ := handle_message_one h0 c m h0ret
      cases hv : handler_verdict h0 m with
      | LM_HANDLER_RESULT_REMOVE_MESSAGE =>
        refine ⟨a0, ev0, ?_, ?_⟩
        · simp [hone, hv]
        · simp [hv, hinv0]
      | LM_HANDLER_RESULT_ALLOW_MORE_HANDLERS =>
        have hrest : ∀ h ∈ spec_chain_walk m (c.handlers (lm_message_get_type m)),
            handler_returns h m = true := by
          intro h hh
          apply hret
          simp [hv, hh]
        obtain ⟨r, a, ev, hloop, hinv⟩ := handlers_loop_spec m _
          { c with auth_cb := a0, id_handlers := g_hash_table_remove c.id_handlers id } hrest
        refine ⟨a, ev0 ++ ev, ?_, ?_⟩
        · simp [hone, hv, hloop]
        · simp [hv, invoked_append, hinv0, hinv]

/-! ## Registry -/

theorem insert_sorted_perm (x : HandlerData) :
    ∀ l : List HandlerData,
      List.Perm (g_slist_insert_sorted l x connection_handler_compare_func) (x :: l) := by
  intro l
  induction l with
  | nil => exact List.Perm.refl _
  | cons y rest ih =>
    unfold g_slist_insert_sorted
    split
    · exact (List.Perm.cons y ih).trans (List.Perm.swap x y rest)
    · exact List.Perm.refl _

theorem to_gint_exact (x : Int) (h1 : -2147483648 ≤ x) (h2 : x < 2147483648) :
    to_gint x = x := by
  unfold to_gint
  omega

theorem insert_sorted_descending (x : HandlerData) :
    ∀ l : List HandlerData,
      List.Pairwise (fun a b : HandlerData => a.priority > b.priority) l →
      (∀ y ∈ l, y.priority ≠ x.priority) →
      (∀ y ∈ l, y.priority - x.priority < 2147483648 ∧
        x.priority - y.priority < 2147483648) →
      List.Pairwise (fun a b : HandlerData => a.priority > b.priority)
        (g_slist_insert_sorted l x connection_handler_compare_func) := by
  intro l
  induction l with
  | nil =>
    intro _ _ _
    simp [g_slist_insert_sorted]
  | cons y rest ih =>
    intro hs hne hclose
    have hy : y.priority ≠ x.priority := hne y (List.mem_cons_self _ _)
    have hyc := hclose y (List.mem_cons_self _ _)
    have hrest : ∀ z ∈ rest, z.priority ≠ x.priority :=
      fun z hz => hne z (List.mem_cons_of_mem _ hz)
    have hrestc : ∀ z ∈ rest, z.priority - x.priority < 2147483648 ∧
        x.priority - z.priority < 2147483648 :=
      fun z hz => hclose z (List.mem_cons_of_mem _ hz)
    have hcmp : connection_handler_compare_func x y = y.priority - x.priority := by
      unfold connection_handler_compare_func
      exact to_gint_exact _ (by omega) (by omega)
    obtain ⟨hyrest, hsrest⟩ := List.pairwise_cons.mp hs
    unfold g_slist_insert_sorted
    split
    · rename_i hgt
      have hgt2 : y.priority > x.priority := by
        rw [hcmp] at hgt
        omega
      refine List.pairwise_cons.mpr ⟨?_, ih hsrest hrest hrestc⟩
      intro z hz
      have hz2 : z ∈ x :: rest := (insert_sorted_perm x rest).subset hz
      rcases List.mem_cons.mp hz2 with h1 | h1
      · rw [h1]; exact hgt2
      · exact hyrest z h1
    · rename_i hle
      have hlt : x.priority > y.priority := by
        rw [hcmp] at hle
        omega
      refine List.pairwise_cons.mpr ⟨?_, hs⟩
      intro z hz
      rcases List.mem_cons.mp hz with h1 | h1
      · rw [h1]; exact hlt
      · have := hyrest z h1
        omega

theorem register_all_id_handlers (type : LmMessageType) :
    ∀ (regs : List (LmMessageHandler × Int)) (c : LmConnection),
      (register_all c type regs).id_handlers = c.id_handlers := by
  intro regs
  induction regs with
  | nil => intro c; rfl
  | cons r rest ih =>
    intro c
    simp only [register_all]
    rw [ih]
    rfl

theorem register_all_chain (type : LmMessageType) :
    ∀ (regs : List (LmMessageHandler × Int)) (c : LmConnection),
      List.Pairwise (fun a b : HandlerData => a.priority > b.priority) (c.handlers type) →
      (((c.handlers type).map (fun hd => hd.priority)) ++ regs.map Prod.snd).Nodup →
      (∀ p ∈ ((c.handlers type).map (fun hd => hd.priority)) ++ regs.map Prod.snd,
        ∀ q ∈ ((c.handlers type).map (fun hd => hd.priority)) ++ regs.map Prod.snd,
          p - q < 2147483648) →
      List.Pairwise (fun a b : HandlerData => a.priority > b.priority)
        ((register_all c type regs).handlers type) ∧
      List.Perm ((register_all c type regs).handlers type)
        (c.handlers type ++ regs.map (fun r => { priority := r.2, handler := r.1 })) := by
  intro regs
  induction regs with
  | nil =>
    intro c hs _ _
    simpa [register_all] using hs
  | cons r rest ih =>
    intro c hs hnd hclose
    simp only [register_all]
    have hchain : (lm_connection_register_message_handler c r.1 type r.2).handlers type
        = g_slist_insert_sorted (c.handlers type) { priority := r.2, handler := r.1 }
            connection_handler_compare_func := by
      simp [lm_connection_register_message_handler]
    have hperm := insert_sorted_perm { priority := r.2, handler := r.1 } (c.handlers type)
    have hne : ∀ y ∈ c.handlers type, y.priority ≠ r.2 := by
      intro y hy heq
      rw [List.nodup_append] at hnd
      exact hnd.2.2 (List.mem_map.mpr ⟨y, hy, rfl⟩) (by simp [heq])
    have hr2 : r.2 ∈ ((c.handlers type).map (fun hd => hd.priority)) ++ (r :: rest).map Prod.snd := by
      simp
    have hnear : ∀ y ∈ c.handlers type, y.priority - r.2 < 2147483648 ∧
        r.2 - y.priority < 2147483648 := by
      intro y hy
      have hy2 : y.priority ∈ ((c.handlers type).map (fun hd => hd.priority))
          ++ (r :: rest).map Prod.snd :=
        List.mem_append_left _ (List.mem_map.mpr ⟨y, hy, rfl⟩)
      exact ⟨hclose _ hy2 _ hr2, hclose _ hr2 _ hy2⟩
    have hs1 := insert_sorted_descending { priority := r.2, handler := r.1 } (c.handlers type)
      hs hne hnear
    have hp : List.Perm
        ((g_slist_insert_sorted (c.handlers type) { priority := r.2, handler := r.1 }
            connection_handler_compare_func).map (fun hd => hd.priority) ++ rest.map Prod.snd)
        ((c.handlers type).map (fun hd => hd.priority) ++ (r :: rest).map Prod.snd) := by
      have h1 := (hperm.map (fun hd : HandlerData => hd.priority)).append_right (rest.map Prod.snd)
      refine h1.trans ?_
      simp only [List.map_cons, List.cons_append]
      exact (List.perm_middle).symm
    have hnd1 : ((((lm_connection_register_message_handler c r.1 type r.2).handlers type).map
        (fun hd => hd.priority)) ++ rest.map Prod.snd).Nodup := by
      rw [hchain]
      exact hp.nodup_iff.mpr hnd
    have hclose1 : ∀ p ∈ (((lm_connection_register_message_handler c r.1 type r.2).handlers
          type).map (fun hd => hd.priority)) ++ rest.map Prod.snd,
        ∀ q ∈ (((lm_connection_register_message_handler c r.1 type r.2).handlers
          type).map (fun hd => hd.priority)) ++ rest.map Prod.snd,
          p - q < 2147483648 := by
      rw [hchain]
      intro p hp1 q hq1
      exact hclose p (hp.subset hp1) q (hp.subset hq1)
    obtain ⟨hsorted, hpermAll⟩ := ih (lm_connection_register_message_handler c r.1 type r.2)
      (by rw [hchain]; exact hs1) hnd1 hclose1
    refine ⟨hsorted, hpermAll.trans ?_⟩
    rw [hchain]
    refine (hperm.append_right _).trans ?_
    simp only [List.map_cons, List.cons_append]
    exact List.perm_middle.symm

theorem returns_of_allow (h : LmMessageHandler) (m : LmMessage)
    (hv : handler_verdict h m = .LM_HANDLER_RESULT_ALLOW_MORE_HANDLERS) :
    handler_returns h m = true := by
  unfold handler_verdict at hv
  unfold handler_returns
  cases hf : h.function with
  | user v => rfl
  | connection_auth_reply => rw [hf] at hv; cases hv

theorem spec_chain_walk_all_allow (m : LmMessage) :
    ∀ l : List HandlerData,
      (∀ hd ∈ l, handler_verdict hd.handler m = .LM_HANDLER_RESULT_ALLOW_MORE_HANDLERS) →
      spec_chain_walk m l = l.map (fun hd => hd.handler) := by
  intro l
  induction l with
  | nil => intro _; rfl
  | cons hd rest ih =>
    intro h
    have h1 := h hd (List.mem_cons_self _ _)
    have h2 := ih (fun x hx => h x (List.mem_cons_of_mem _ hx))
    simp [spec_chain_walk, h1, h2]

theorem unregister_loop_split (h : LmMessageHandler) :
    ∀ (pre : List HandlerData) (hd : HandlerData) (post : List HandlerData),
      hd.handler.addr = h.addr → (∀ x ∈ pre, x.handler.addr ≠ h.addr) →
      unregister_loop h (pre ++ hd :: post) = pre ++ post := by
  intro pre
  induction pre with
  | nil =>
    intro hd post hm _
    simp [unregister_loop, hm]
  | cons y rest ih =>
    intro hd post hm hno
    have hy : y.handler.addr ≠ h.addr := hno y (List.mem_cons_self _ _)
    have hrec := ih hd post hm (fun x hx => hno x (List.mem_cons_of_mem _ hx))
    rw [List.cons_append, unregister_loop, if_neg hy, hrec, List.cons_append]

theorem unregister_loop_absent (h : LmMessageHandler) :
    ∀ l : List HandlerData, (∀ x ∈ l, x.handler.addr ≠ h.addr) → unregister_loop h l = l := by
  intro l
  induction l with
  | nil => intro _; rfl
  | cons y rest ih =>
    intro hno
    have hy : y.handler.addr ≠ h.addr := hno y (List.mem_cons_self _ _)
    simp only [unregister_loop, if_neg hy]
    rw [ih (fun x hx => hno x (List.mem_cons_of_mem _ hx))]

theorem unregister_loop_sublist (h : LmMessageHandler) :
    ∀ l : List HandlerData, List.Sublist (unregister_loop h l) l := by
  intro l
  induction l with
  | nil => exact List.Sublist.refl _
  | cons y rest ih =>
    unfold unregister_loop
    split
    · exact List.sublist_cons_self y rest
    · exact List.Sublist.cons₂ y ih

/-! ## Correlation map -/

theorem lookup_insert_self (t : List (String × LmMessageHandler)) (k : String)
    (h : LmMessageHandler) :
    g_hash_table_lookup (g_hash_table_insert t k h) k = some h := by
  simp [g_hash_table_lookup, g_hash_table_insert]

theorem lookup_remove_self (t : List (String × LmMessageHandler)) (k : String) :
    g_hash_table_lookup (g_hash_table_remove t k) k = none := by
  simp [g_hash_table_lookup, g_hash_table_remove, List.find?_eq_none]

theorem spec_chain_walk_subset (m : LmMessage) :
    ∀ (l : List HandlerData), ∀ h ∈ spec_chain_walk m l, ∃ hd ∈ l, hd.handler = h := by
  intro l
  induction l with
  | nil => intro h hh; simp [spec_chain_walk] at hh
  | cons hd rest ih =>
    intro h hh
    unfold spec_chain_walk at hh
    split at hh
    · have : h = hd.handler := by simpa using hh
      exact ⟨hd, List.mem_cons_self _ _, this.symm⟩
    · rcases List.mem_cons.mp hh with h1 | h1
      · exact ⟨hd, List.mem_cons_self _ _, h1.symm⟩
      · obtain ⟨x, hx, hxe⟩ := ih h h1
        exact ⟨x, List.mem_cons_of_mem _ hx, hxe⟩

theorem chain_walk_no_invocation (m : LmMessage) (addr : Nat) (l : List HandlerData)
    (hno : ∀ hd ∈ l, hd.handler.addr ≠ addr) :
    ((spec_chain_walk m l).map (fun h => (h.addr, m))).filter (fun p => p.1 == addr) = [] := by
  rw [List.filter_eq_nil_iff]
  intro p hp
  obtain ⟨h, hh, hpe⟩ := List.mem_map.mp hp
  obtain ⟨hd, hhd, hde⟩ := spec_chain_walk_subset m l h hh
  have := hno hd hhd
  rw [hde] at this
  simp [← hpe, this]

theorem chain_walk_returns (m : LmMessage) (l : List HandlerData)
    (h : ∀ hd ∈ l, handler_returns hd.handler m = true) :
    ∀ h1 ∈ spec_chain_walk m l, handler_returns h1 m = true := by
  intro h1 hh1
  obtain ⟨hd, hhd, hde⟩ := spec_chain_walk_subset m l h1 hh1
  rw [← hde]
  exact h hd hhd

/-! ## Queue -/

theorem handler_queue_frame (h : LmMessageHandler) (c : LmConnection) (m : LmMessage)
    (q : List LmMessage) :
    _lm_message_handler_handle_message h { c with incoming_messages := q } m
      = (_lm_message_handler_handle_message h c m).map
          (fun r => (r.1, { r.2.1 with incoming_messages := q }, r.2.2)) := by
  unfold _lm_message_handler_handle_message
  cases h.function with
  | user v => rfl
  | connection_auth_reply =>
    simp only [connection_auth_reply]
    cases lm_message_node_get_attribute m.node "type" <;> rfl

theorem handlers_loop_queue_frame (m : LmMessage) (q : List LmMessage) :
    ∀ (l : List HandlerData) (r : LmHandlerResult) (c : LmConnection),
      handlers_loop m l r { c with incoming_messages := q }
        = (handlers_loop m l r c).map
            (fun x => (x.1, { x.2.1 with incoming_messages := q }, x.2.2)) := by
  intro l
  induction l with
  | nil => intro r c; rfl
  | cons hd rest ih =>
    intro r c
    unfold handlers_loop
    by_cases hr : r = .LM_HANDLER_RESULT_ALLOW_MORE_HANDLERS
    · rw [if_pos hr, if_pos hr, handler_queue_frame]
      cases _lm_message_handler_handle_message hd.handler c m with
      | none => rfl
      | some x =>
        obtain ⟨r1, c1, ev1⟩ := x
        simp only [Option.map_some']
        have := ih r1 c1
        simp only at this
        rw [this]
        cases handlers_loop m rest r1 c1 with
        | none => rfl
        | some y => rfl
    · rw [if_neg hr, if_neg hr]
      rfl

theorem id_step_queue_frame (c : LmConnection) (m : LmMessage) (q : List LmMessage) :
    id_handler_step { c with incoming_messages := q } m
      = (id_handler_step c m).map
          (fun x => (x.1, { x.2.1 with incoming_messages := q }, x.2.2)) := by
  unfold id_handler_step
  cases lm_message_node_get_attribute m.node "id" with
  | none => rfl
  | some id =>
    simp only
    cases g_hash_table_lookup c.id_handlers id with
    | none => rfl
    | some h =>
      simp only
      rw [handler_queue_frame]
      cases _lm_message_handler_handle_message h c m with
      | none => rfl
      | some x => rfl

/-- Routing neither reads nor changes the incoming queue. -/
theorem handle_message_queue_frame (c : LmConnection) (m : LmMessage) (q : List LmMessage) :
    connection_handle_message { c with incoming_messages := q } m
      = (connection_handle_message c m).map
          (fun x => ({ x.1 with incoming_messages := q }, x.2)) := by
  unfold connection_handle_message
  by_cases hs : lm_message_get_type m = .LM_MESSAGE_TYPE_STREAM
  · rw [if_pos hs, if_pos hs]
    rfl
  · rw [if_neg hs, if_neg hs, id_step_queue_frame]
    cases id_handler_step c m with
    | none => rfl
    | some x =>
      obtain ⟨r, c1, ev1⟩ := x
      simp only [Option.map_some']
      by_cases hr : r = .LM_HANDLER_RESULT_REMOVE_MESSAGE
      · rw [if_pos hr, if_pos hr]
        rfl
      · rw [if_neg hr, if_neg hr]
        have := handlers_loop_queue_frame m q (c1.handlers (lm_message_get_type m)) r c1
        simp only at this
        rw [this]
        cases handlers_loop m (c1.handlers (lm_message_get_type m)) r c1 with
        | none => rfl
        | some y => rfl

theorem parser_parse_queue :
    ∀ (ms : List LmMessage) (c : LmConnection),
      lm_parser_parse c ms = { c with incoming_messages := c.incoming_messages ++ ms } := by
  intro ms
  induction ms with
  | nil => intro c; simp [lm_parser_parse]
  | cons m rest ih =>
    intro c
    have h := ih (connection_new_message_cb c m).1
    unfold lm_parser_parse at h ⊢
    rw [List.foldl_cons, h]
    simp [connection_new_message_cb]

theorem dispatch_steps_handle_all :
    ∀ (k : Nat) (ms : List LmMessage) (c : LmConnection), k ≤ ms.length →
      dispatch_steps k { c with incoming_messages := ms }
        = (handle_all c (ms.take k)).map
            (fun x => ({ x.1 with incoming_messages := ms.drop k }, x.2)) := by
  intro k
  induction k with
  | zero => intro ms c _; rfl
  | succ k ih =>
    intro ms c hk
    cases ms with
    | nil => simp at hk
    | cons m rest =>
      have hk2 : k ≤ rest.length := by simpa using hk
      simp only [dispatch_steps, connection_incoming_dispatch, List.take_succ_cons,
        List.drop_succ_cons, handle_all]
      have hq := handle_message_queue_frame c m rest
      simp only at hq
      rw [hq]
      cases connection_handle_message c m with
      | none => rfl
      | some x =>
        obtain ⟨c1, ev1⟩ := x
        simp only [Option.map_some']
        have := ih rest c1 hk2
        simp only at this
        rw [this]
        cases handle_all c1 (List.take k rest) with
        | none => rfl
        | some y => rfl

theorem returns_of_type_attribute (h : LmMessageHandler) (m : LmMessage)
    (ht : (lm_message_node_get_attribute m.node "type").isSome = true) :
    handler_returns h m = true := by
  unfold handler_returns
  cases h.function with
  | user v => rfl
  | connection_auth_reply => exact ht

theorem handle_message_total (c : LmConnection) (m : LmMessage)
    (ht : (lm_message_node_get_attribute m.node "type").isSome = true) :
    ∃ c1 ev, connection_handle_message c m = some (c1, ev) := by
  by_cases hs : lm_message_get_type m = .LM_MESSAGE_TYPE_STREAM
  · unfold connection_handle_message
    rw [if_pos hs]
    exact ⟨_, _, rfl⟩
  · obtain ⟨a, ev, h, _⟩ := handle_message_shape c m hs
      (fun h _ => returns_of_type_attribute h m ht)
    exact ⟨_, ev, h⟩

theorem handle_all_total :
    ∀ (ms : List LmMessage) (c : LmConnection),
      (∀ m ∈ ms, (lm_message_node_get_attribute m.node "type").isSome = true) →
      ∃ c1 ev, handle_all c ms = some (c1, ev) := by
  intro ms
  induction ms with
  | nil => intro c _; exact ⟨c, [], rfl⟩
  | cons m rest ih =>
    intro c h
    obtain ⟨c1, ev1, h1⟩ := handle_message_total c m (h m (List.mem_cons_self _ _))
    obtain ⟨c2, ev2, h2⟩ := ih c1 (fun x hx => h x (List.mem_cons_of_mem _ hx))
    exact ⟨c2, ev1 ++ ev2, by simp [handle_all, h1, h2]⟩

theorem handle_message_keeps_queue (c c1 : LmConnection) (m : LmMessage) (ev : List Event)
    (h : connection_handle_message c m = some (c1, ev)) :
    c1.incoming_messages = c.incoming_messages := by
  have hq : connection_handle_message c m
      = (connection_handle_message c m).map
          (fun x => ({ x.1 with incoming_messages := c.incoming_messages }, x.2)) :=
    handle_message_queue_frame c m c.incoming_messages
  rw [h] at hq
  simp only [Option.map_some', Option.some.injEq, Prod.mk.injEq, and_true] at hq
  have := congrArg LmConnection.incoming_messages hq
  exact this

theorem handle_all_keeps_queue :
    ∀ (ms : List LmMessage) (c c1 : LmConnection) (ev : List Event),
      handle_all c ms = some (c1, ev) → c1.incoming_messages = c.incoming_messages := by
  intro ms
  induction ms with
  | nil =>
    intro c c1 ev h
    simp only [handle_all, Option.some.injEq, Prod.mk.injEq] at h
    rw [← h.1]
  | cons m rest ih =>
    intro c c1 ev h
    unfold handle_all at h
    cases hm : connection_handle_message c m with
    | none => simp [hm] at h
    | some x =>
      obtain ⟨c2, ev2⟩ := x
      rw [hm] at h
      simp only at h
      cases hr : handle_all c2 rest with
      | none => simp [hr] at h
      | some y =>
        obtain ⟨c3, ev3⟩ := y
        rw [hr] at h
        simp only [Option.some.injEq, Prod.mk.injEq] at h
        rw [← h.1, ih c2 c3 ev3 hr, handle_message_keeps_queue c c2 m ev2 hm]

/-! ## Blocking loops -/

theorem in_event_nothing (c : LmConnection) : connection_in_event c [] = c := by
  unfold connection_in_event
  cases c.io_channel <;> rfl

/-- Loop iterations that complete no stanza never end the wait of
`lm_connection_send_with_reply_and_block` once `last_len` has reached the queue
length, whatever the queue holds. -/
theorem block_loop_idle (id : String) :
    ∀ (n : Nat) (c : LmConnection) (last_len : Nat),
      c.incoming_messages.length ≤ last_len →
      send_with_reply_and_block_loop id (List.replicate n [.in_event []]) c last_len = none := by
  intro n
  induction n with
  | zero => intro c last_len _; rfl
  | succ n ih =>
    intro c last_len hlen
    rw [List.replicate_succ]
    unfold send_with_reply_and_block_loop
    simp only [g_main_context_iteration, in_event_nothing]
    rw [if_neg (by omega), ih c last_len hlen]

/-- An iteration without error and hangup callback, on a connection with a
channel, only appends the stanzas it completes to the queue. -/
theorem iteration_arrivals (fd : Nat) :
    ∀ (it : List ReadyCallback) (c : LmConnection),
      no_disconnect it = true → c.io_channel = some fd →
      g_main_context_iteration c it
        = ({ c with incoming_messages := c.incoming_messages ++ arrived it }, []) := by
  intro it
  induction it with
  | nil =>
    intro c _ _
    simp [g_main_context_iteration, arrived]
  | cons cb rest ih =>
    intro c hnd hch
    cases cb with
    | in_event ms =>
      have hin : connection_in_event c ms
          = { c with incoming_messages := c.incoming_messages ++ ms } := by
        unfold connection_in_event
        split
        · rename_i hn
          rw [hch] at hn
          cases hn
        · exact parser_parse_queue ms c
      simp only [g_main_context_iteration, arrived, hin]
      rw [ih { c with incoming_messages := c.incoming_messages ++ ms }
        (by simpa [no_disconnect] using hnd) hch]
      simp [List.append_assoc]
    | error_event => simp [no_disconnect] at hnd
    | hup_event => simp [no_disconnect] at hnd

theorem getLast?_some_of_length_pos {α : Type} (l : List α) (h : 0 < l.length) :
    ∃ x, l.getLast? = some x := by
  cases hl : l.getLast? with
  | some x => exact ⟨x, rfl⟩
  | none =>
    rw [List.getLast?_eq_none_iff] at hl
    rw [hl] at h
    simp at h

/-- The wait of `lm_connection_open_and_block`, when no error or hangup event
is dispatched: it ends with the first iteration after which a stream stanza is
the tail of the queue, taking that stanza off and keeping the others. -/
theorem open_loop_returns (fd : Nat) (it : List ReadyCallback)
    (rest : List (List ReadyCallback)) (m : LmMessage)
    (hit : no_disconnect it = true)
    (hm : lm_message_get_type m = .LM_MESSAGE_TYPE_STREAM) :
    ∀ (pre : List (List ReadyCallback)) (c : LmConnection) (last_len : Nat),
      c.io_channel = some fd →
      last_len ≤ c.incoming_messages.length →
      (∀ m0, c.incoming_messages.getLast? = some m0 →
        lm_message_get_type m0 = .LM_MESSAGE_TYPE_STREAM →
        last_len < c.incoming_messages.length) →
      (∀ i ∈ pre, no_disconnect i = true) →
      (∀ p, p <+: pre → p ≠ [] → ∀ m0,
        (c.incoming_messages ++ arrived_all p).getLast? = some m0 →
        lm_message_get_type m0 ≠ .LM_MESSAGE_TYPE_STREAM) →
      (c.incoming_messages ++ arrived_all (pre ++ [it])).getLast? = some m →
      open_and_block_loop (pre ++ it :: rest) c last_len
        = some (true,
            { c with
              stream_id := lm_message_node_get_attribute m.node "id",
              incoming_messages :=
                (c.incoming_messages ++ arrived_all (pre ++ [it])).dropLast }, []) := by
  intro pre
  induction pre with
  | nil =>
    intro c last_len hch hle hlast _ _ hfin
    simp only [List.nil_append, arrived_all, List.append_nil] at hfin ⊢
    unfold open_and_block_loop
    rw [iteration_arrivals fd it c hit hch]
    simp only
    have hgt : (c.incoming_messages ++ arrived it).length > last_len := by
      by_cases ha : arrived it = []
      · rw [ha, List.append_nil] at hfin ⊢
        exact hlast m hfin hm
      · have : 0 < (arrived it).length := List.length_pos.mpr ha
        rw [List.length_append]
        omega
    rw [if_pos hgt, hfin]
    simp only [hm, if_true]
  | cons i pre1 ih =>
    intro c last_len hch hle hlast hpre hprefix hfin
    have hi : no_disconnect i = true := hpre i (List.mem_cons_self _ _)
    have hnot : ∀ m0, (c.incoming_messages ++ arrived i).getLast? = some m0 →
        lm_message_get_type m0 ≠ .LM_MESSAGE_TYPE_STREAM := by
      intro m0 h0
      apply hprefix [i] (by simp) (by simp) m0
      simpa [arrived_all] using h0
    have hrec : ∀ last_len1,
        last_len1 ≤ (c.incoming_messages ++ arrived i).length →
        open_and_block_loop (pre1 ++ it :: rest)
            { c with incoming_messages := c.incoming_messages ++ arrived i } last_len1
          = some (true,
              { c with
                stream_id := lm_message_node_get_attribute m.node "id",
                incoming_messages :=
                  (c.incoming_messages ++ arrived_all (i :: pre1 ++ [it])).dropLast }, []) := by
      intro last_len1 hle1
      have := ih { c with incoming_messages := c.incoming_messages ++ arrived i } last_len1
        hch hle1
        (by
          intro m0 h0 hs0
          exact absurd hs0 (hnot m0 h0))
        (fun j hj => hpre j (List.mem_cons_of_mem _ hj))
        (by
          intro p hp hpne m0 h0
          apply hprefix (i :: p) ((List.prefix_cons_inj i).mpr hp) (by simp) m0
          simpa [arrived_all, List.append_assoc] using h0)
        (by simpa [arrived_all, List.append_assoc] using hfin)
      simpa [arrived_all, List.append_assoc] using this
    rw [List.cons_append]
    unfold open_and_block_loop
    rw [iteration_arrivals fd i c hi hch]
    simp only
    by_cases hgt : (c.incoming_messages ++ arrived i).length > last_len
    · rw [if_pos hgt]
      obtain ⟨m0, hm0⟩ := getLast?_some_of_length_pos (c.incoming_messages ++ arrived i)
        (by omega)
      rw [hm0]
      simp only [if_neg (hnot m0 hm0)]
      rw [hrec _ (Nat.le_refl _)]
      simp
    · rw [if_neg hgt]
      rw [hrec last_len (by rw [List.length_append]; omega)]
      simp

/-! ## Lifecycle -/

theorem disconnect_calls_signal (c : LmConnection) (reason : LmDisconnectReason) :
    disconnect_calls (connection_signal_disconnect c reason) = fired_once c reason := by
  unfold connection_signal_disconnect fired_once
  rcases c.disconnect_cb with _ | ⟨f, ud, n⟩
  · rfl
  · cases f <;> rfl

theorem handler_frame (h : LmMessageHandler) (c c1 : LmConnection) (m : LmMessage)
    (r : LmHandlerResult) (ev : List Event)
    (hh : _lm_message_handler_handle_message h c m = some (r, c1, ev)) :
    ∃ a, c1 = { c with auth_cb := a } := by
  unfold _lm_message_handler_handle_message at hh
  cases hf : h.function with
  | user v =>
    rw [hf] at hh
    simp only [Option.some.injEq, Prod.mk.injEq] at hh
    exact ⟨c.auth_cb, hh.2.1.symm⟩
  | connection_auth_reply =>
    rw [hf] at hh
    simp only [connection_auth_reply] at hh
    cases ht : lm_message_node_get_attribute m.node "type" with
    | none => simp [ht] at hh
    | some t =>
      rw [ht] at hh
      simp only [Option.some.injEq, Prod.mk.injEq] at hh
      exact ⟨none, hh.2.1.symm⟩

theorem handlers_loop_frame (m : LmMessage) :
    ∀ (l : List HandlerData) (r : LmHandlerResult) (c c1 : LmConnection) (r1 : LmHandlerResult)
      (ev : List Event),
      handlers_loop m l r c = some (r1, c1, ev) → ∃ a, c1 = { c with auth_cb := a } := by
  intro l
  induction l with
  | nil =>
    intro r c c1 r1 ev hh
    simp only [handlers_loop, Option.some.injEq, Prod.mk.injEq] at hh
    exact ⟨c.auth_cb, hh.2.1.symm⟩
  | cons hd rest ih =>
    intro r c c1 r1 ev hh
    unfold handlers_loop at hh
    by_cases hr : r = .LM_HANDLER_RESULT_ALLOW_MORE_HANDLERS
    · rw [if_pos hr] at hh
      cases h1 : _lm_message_handler_handle_message hd.handler c m with
      | none => simp [h1] at hh
      | some x =>
        obtain ⟨r2, c2, ev2⟩ := x
        rw [h1] at hh
        simp only at hh
        cases h2 : handlers_loop m rest r2 c2 with
        | none => simp [h2] at hh
        | some y =>
          obtain ⟨r3, c3, ev3⟩ := y
          rw [h2] at hh
          simp only [Option.some.injEq, Prod.mk.injEq] at hh
          obtain ⟨a2, ha2⟩ := handler_frame _ _ _ _ _ _ h1
          obtain ⟨a3, ha3⟩ := ih _ _ _ _ _ h2
          refine ⟨a3, ?_⟩
          rw [← hh.2.1, ha3, ha2]
    · rw [if_neg hr] at hh
      simp only [Option.some.injEq, Prod.mk.injEq] at hh
      exact ⟨c.auth_cb, hh.2.1.symm⟩

theorem id_step_frame (c c1 : LmConnection) (m : LmMessage) (r : LmHandlerResult)
    (ev : List Event) (hh : id_handler_step c m = some (r, c1, ev)) :
    ∃ a t, c1 = { c with auth_cb := a, id_handlers := t } := by
  unfold id_handler_step at hh
  cases hid : lm_message_node_get_attribute m.node "id" with
  | none =>
    rw [hid] at hh
    simp only [Option.some.injEq, Prod.mk.injEq] at hh
    exact ⟨c.auth_cb, c.id_handlers, hh.2.1.symm⟩
  | some id =>
    rw [hid] at hh
    simp only at hh
    cases hl : g_hash_table_lookup c.id_handlers id with
    | none =>
      rw [hl] at hh
      simp only [Option.some.injEq, Prod.mk.injEq] at hh
      exact ⟨c.auth_cb, c.id_handlers, hh.2.1.symm⟩
    | some h =>
      rw [hl] at hh
      simp only at hh
      cases h1 : _lm_message_handler_handle_message h c m with
      | none => simp [h1] at hh
      | some x =>
        obtain ⟨r2, c2, ev2⟩ := x
        rw [h1] at hh
        simp only [Option.some.injEq, Prod.mk.injEq] at hh
        obtain ⟨a2, ha2⟩ := handler_frame _ _ _ _ _ _ h1
        refine ⟨a2, g_hash_table_remove c.id_handlers id, ?_⟩
        rw [← hh.2.1, ha2]

/-- Routing a stanza that is not of the stream type changes at most the
authenticate slot and the correlation map. -/
theorem handle_message_frame (c c1 : LmConnection) (m : LmMessage) (ev : List Event)
    (hns : lm_message_get_type m ≠ .LM_MESSAGE_TYPE_STREAM)
    (hh : connection_handle_message c m = some (c1, ev)) :
    ∃ a t, c1 = { c with auth_cb := a, id_handlers := t } := by
  unfold connection_handle_message at hh
  rw [if_neg hns] at hh
  cases h1 : id_handler_step c m with
  | none => simp [h1] at hh
  | some x =>
    obtain ⟨r2, c2, ev2⟩ := x
    rw [h1] at hh
    simp only at hh
    obtain ⟨a2, t2, hc2⟩ := id_step_frame _ _ _ _ _ h1
    by_cases hr : r2 = .LM_HANDLER_RESULT_REMOVE_MESSAGE
    · rw [if_pos hr] at hh
      simp only [Option.some.injEq, Prod.mk.injEq] at hh
      exact ⟨a2, t2, by rw [← hh.1, hc2]⟩
    · rw [if_neg hr] at hh
      cases h2 : handlers_loop m (c2.handlers (lm_message_get_type m)) r2 c2 with
      | none => simp [h2] at hh
      | some y =>
        obtain ⟨r3, c3, ev3⟩ := y
        rw [h2] at hh
        simp only [Option.some.injEq, Prod.mk.injEq] at hh
        obtain ⟨a3, ha3⟩ := handlers_loop_frame _ _ _ _ _ _ _ h2
        exact ⟨a3, t2, by rw [← hh.1, ha3, hc2]⟩

/-- Routing any stanza changes at most the stream id, the open slot, the
authenticate slot and the correlation map. -/
theorem handle_message_frame_any (c c1 : LmConnection) (m : LmMessage) (ev : List Event)
    (hh : connection_handle_message c m = some (c1, ev)) :
    ∃ s o a t, c1 = { c with stream_id := s, open_cb := o, auth_cb := a, id_handlers := t } := by
  by_cases hs : lm_message_get_type m = .LM_MESSAGE_TYPE_STREAM
  · unfold connection_handle_message at hh
    rw [if_pos hs] at hh
    simp only [connection_stream_received, Option.some.injEq, Prod.mk.injEq] at hh
    exact ⟨lm_message_node_get_attribute m.node "id", none, c.auth_cb, c.id_handlers, hh.1.symm⟩
  · obtain ⟨a, t, h⟩ := handle_message_frame c c1 m ev hs hh
    exact ⟨c.stream_id, c.open_cb, a, t, h⟩

theorem in_event_fields (c : LmConnection) (ms : List LmMessage) :
    ∃ q, connection_in_event c ms = { c with incoming_messages := q } := by
  unfold connection_in_event
  split
  · exact ⟨c.incoming_messages, rfl⟩
  · exact ⟨_, parser_parse_queue ms c⟩

theorem iteration_inv :
    ∀ (it : List ReadyCallback) (c : LmConnection),
      lifecycle_inv c → lifecycle_inv (g_main_context_iteration c it).1 := by
  intro it
  induction it with
  | nil => intro c h; exact h
  | cons cb rest ih =>
    intro c h
    cases cb with
    | in_event ms =>
      simp only [g_main_context_iteration]
      apply ih
      obtain ⟨q, hq⟩ := in_event_fields c ms
      rw [hq]
      exact h
    | error_event =>
      simp only [g_main_context_iteration]
      apply ih
      exact ⟨rfl, h.2⟩
    | hup_event =>
      simp only [g_main_context_iteration]
      apply ih
      exact ⟨rfl, h.2⟩

theorem iteration_stream_id :
    ∀ (it : List ReadyCallback) (c : LmConnection),
      (g_main_context_iteration c it).1.stream_id = c.stream_id := by
  intro it
  induction it with
  | nil => intro c; rfl
  | cons cb rest ih =>
    intro c
    cases cb with
    | in_event ms =>
      simp only [g_main_context_iteration]
      rw [ih]
      obtain ⟨q, hq⟩ := in_event_fields c ms
      rw [hq]
    | error_event =>
      simp only [g_main_context_iteration]
      rw [ih]
      rfl
    | hup_event =>
      simp only [g_main_context_iteration]
      rw [ih]
      rfl

theorem open_loop_inv :
    ∀ (schedule : List (List ReadyCallback)) (c : LmConnection) (last_len : Nat)
      (r : Bool × LmConnection × List Event),
      lifecycle_inv c → open_and_block_loop schedule c last_len = some r →
      lifecycle_inv r.2.1 := by
  intro schedule
  induction schedule with
  | nil => intro c last_len r _ h; simp [open_and_block_loop] at h
  | cons it rest ih =>
    intro c last_len r hinv h
    have h1 := iteration_inv it c hinv
    unfold open_and_block_loop at h
    generalize g_main_context_iteration c it = x at h h1
    obtain ⟨c1, ev1⟩ := x
    simp only at h h1
    split at h
    · split at h
      · simp at h
      · split at h
        · simp only [Option.some.injEq] at h
          rw [← h]
          exact h1
        · cases h2 : open_and_block_loop rest c1 c1.incoming_messages.length with
          | none => simp [h2] at h
          | some y =>
            rw [h2] at h
            simp only [Option.some.injEq] at h
            rw [← h]
            exact ih c1 _ y h1 h2
    · cases h2 : open_and_block_loop rest c1 last_len with
      | none => simp [h2] at h
      | some y =>
        rw [h2] at h
        simp only [Option.some.injEq] at h
        rw [← h]
        exact ih c1 _ y h1 h2

/-- A property that neither the queue, nor the dispatch source, nor closing the
channel can break is kept by a loop iteration. -/
theorem iteration_keeps (P : LmConnection → Prop)
    (hq : ∀ c q, P c → P { c with incoming_messages := q })
    (hc : ∀ c, P c → P (connection_do_close c)) :
    ∀ (it : List ReadyCallback) (c : LmConnection),
      P c → P (g_main_context_iteration c it).1 := by
  intro it
  induction it with
  | nil => intro c h; exact h
  | cons cb rest ih =>
    intro c h
    cases cb with
    | in_event ms =>
      simp only [g_main_context_iteration]
      apply ih
      obtain ⟨q, hq1⟩ := in_event_fields c ms
      rw [hq1]
      exact hq c q h
    | error_event =>
      simp only [g_main_context_iteration]
      exact ih _ (hc c h)
    | hup_event =>
      simp only [g_main_context_iteration]
      exact ih _ (hc c h)

theorem block_loop_keeps (P : LmConnection → Prop)
    (hq : ∀ c q, P c → P { c with incoming_messages := q })
    (hc : ∀ c, P c → P (connection_do_close c)) (id : String) :
    ∀ (schedule : List (List ReadyCallback)) (c : LmConnection) (last_len : Nat)
      (r : LmMessage × LmConnection × List Event),
      P c → send_with_reply_and_block_loop id schedule c last_len = some r → P r.2.1 := by
  intro schedule
  induction schedule with
  | nil => intro c last_len r _ h; simp [send_with_reply_and_block_loop] at h
  | cons it rest ih =>
    intro c last_len r hinv h
    have h1 := iteration_keeps P hq hc it c hinv
    unfold send_with_reply_and_block_loop at h
    generalize g_main_context_iteration c it = x at h h1
    obtain ⟨c1, ev1⟩ := x
    simp only at h h1
    split at h
    · split at h
      · simp at h
      · split at h
        · simp only [Option.some.injEq] at h
          rw [← h]
          exact hq c1 _ h1
        · cases h2 : send_with_reply_and_block_loop id rest
              { c1 with incoming_messages := c1.incoming_messages.dropLast }
              c1.incoming_messages.length with
          | none => simp [h2] at h
          | some y =>
            rw [h2] at h
            simp only [Option.some.injEq] at h
            rw [← h]
            exact ih _ _ y (hq c1 _ h1) h2
    · cases h2 : send_with_reply_and_block_loop id rest c1 last_len with
      | none => simp [h2] at h
      | some y =>
        rw [h2] at h
        simp only [Option.some.injEq] at h
        rw [← h]
        exact ih c1 _ y h1 h2

theorem block_keeps (P : LmConnection → Prop)
    (hq : ∀ c q, P c → P { c with incoming_messages := q })
    (hc : ∀ c, P c → P (connection_do_close c))
    (hs : ∀ c b, P c → P { c with incoming_source := b })
    (ext : Collaborators) (gen_id : String)
    (schedule : List (List ReadyCallback)) (c : LmConnection) (message : LmMessage)
    (r : LmMessage × LmConnection × List Event) (h : P c)
    (hr : lm_connection_send_with_reply_and_block ext gen_id schedule c message = some r) :
    P r.2.1 := by
  unfold lm_connection_send_with_reply_and_block at hr
  simp only at hr
  cases h2 : send_with_reply_and_block_loop (request_with_id message gen_id).1 schedule
      { c with incoming_source := false } 0 with
  | none => simp [h2] at hr
  | some y =>
    rw [h2] at hr
    simp only [Option.some.injEq] at hr
    rw [← hr]
    exact hs _ _ (block_loop_keeps P hq hc _ schedule _ 0 y (hs c false h) h2)

theorem authenticate_and_block_keeps (P : LmConnection → Prop)
    (hq : ∀ c q, P c → P { c with incoming_messages := q })
    (hc : ∀ c, P c → P (connection_do_close c))
    (hs : ∀ c b, P c → P { c with incoming_source := b })
    (ext : Collaborators) (gen_id : String)
    (schedule : List (List ReadyCallback)) (c : LmConnection)
    (username password resource : String)
    (r : Status × LmConnection × List Event) (h : P c)
    (hr : lm_connection_authenticate_and_block ext gen_id schedule c username password resource
      = some r) :
    P r.2.1 := by
  unfold lm_connection_authenticate_and_block at hr
  split at hr
  · simp only [Option.some.injEq] at hr
    rw [← hr]; exact h
  · split at hr
    · simp at hr
    · rename_i sid hsid
      cases h2 : lm_connection_send_with_reply_and_block ext gen_id schedule c
          (auth_request ext sid username password resource) with
      | none => simp [h2] at hr
      | some y =>
        obtain ⟨reply, c1, ev⟩ := y
        simp only [] at hr
        rw [h2] at hr
        have h3 := block_keeps P hq hc hs ext gen_id schedule c _ _ h h2
        simp only at hr h3
        split at hr
        · simp only [Option.some.injEq] at hr
          rw [← hr]; exact h3
        · simp only [Option.some.injEq] at hr
          rw [← hr]; exact h3
        · simp at hr

theorem inv_queue (c : LmConnection) (q : List LmMessage) (h : lifecycle_inv c) :
    lifecycle_inv { c with incoming_messages := q } := h

theorem inv_close (c : LmConnection) (h : lifecycle_inv c) :
    lifecycle_inv (connection_do_close c) := ⟨rfl, h.2⟩

theorem inv_source (c : LmConnection) (b : Bool) (h : lifecycle_inv c) :
    lifecycle_inv { c with incoming_source := b } := h

theorem do_open_inv (sock : SocketOutcome) (c : LmConnection) (h : lifecycle_inv c) :
    lifecycle_inv (connection_do_open sock c).2.1 := by
  cases sock with
  | gethostbyname_failed => exact h
  | connect_failed => exact h
  | connected fd => exact ⟨rfl, h.2⟩

theorem do_open_stream_id (sock : SocketOutcome) (c : LmConnection) :
    (connection_do_open sock c).2.1.stream_id = c.stream_id := by
  cases sock <;> rfl

theorem open_inv (ext : Collaborators) (sock : SocketOutcome) (c : LmConnection)
    (function : Option Nat) (user_data : Nat) (notify : Option Nat) (h : lifecycle_inv c) :
    lifecycle_inv (lm_connection_open ext sock c function user_data notify).2.1 ∧
    (lm_connection_open ext sock c function user_data notify).2.1.stream_id = c.stream_id := by
  unfold lm_connection_open
  split
  · exact ⟨h, rfl⟩
  · split
    · exact ⟨h, rfl⟩
    · have h1 := do_open_inv sock
        { c with open_cb := some (_lm_utils_new_callback function user_data notify) } h
      have h2 := do_open_stream_id sock
        { c with open_cb := some (_lm_utils_new_callback function user_data notify) }
      simp only []
      rcases hdo : connection_do_open sock
        { c with open_cb := some (_lm_utils_new_callback function user_data notify) }
        with ⟨st, c2, ev⟩
      rw [hdo] at h1 h2
      simp only []
      split <;> exact ⟨h1, h2⟩

theorem open_and_block_inv (ext : Collaborators) (sock : SocketOutcome)
    (schedule : List (List ReadyCallback)) (c : LmConnection)
    (r : Status × LmConnection × List Event) (h : lifecycle_inv c)
    (hr : lm_connection_open_and_block ext sock schedule c = some r) :
    lifecycle_inv r.2.1 := by
  unfold lm_connection_open_and_block at hr
  split at hr
  · simp only [Option.some.injEq] at hr
    rw [← hr]; exact h
  · split at hr
    · simp only [Option.some.injEq] at hr
      rw [← hr]; exact h
    · have h1 := do_open_inv sock c h
      generalize connection_do_open sock c = x at h1 hr
      obtain ⟨st, c2, ev⟩ := x
      simp only at h1 hr
      split at hr
      · simp only [Option.some.injEq] at hr
        rw [← hr]; exact h1
      · cases h2 : open_and_block_loop schedule { c2 with incoming_source := false } 0 with
        | none => simp [h2] at hr
        | some y =>
          rw [h2] at hr
          simp only [Option.some.injEq] at hr
          rw [← hr]
          exact open_loop_inv schedule { c2 with incoming_source := false } 0 y h1 h2

theorem authenticate_inv (ext : Collaborators) (gen_id : String) (handler_addr : Nat)
    (c : LmConnection) (username password resource : String)
    (function : Option Nat) (user_data : Nat) (notify : Option Nat)
    (r : Status × LmConnection × List Event) (h : lifecycle_inv c)
    (hr : lm_connection_authenticate ext gen_id handler_addr c username password resource
      function user_data notify = some r) :
    lifecycle_inv r.2.1 ∧ r.2.1.stream_id = c.stream_id := by
  unfold lm_connection_authenticate at hr
  split at hr
  · simp only [Option.some.injEq] at hr
    rw [← hr]; exact ⟨h, rfl⟩
  · simp only at hr
    split at hr
    · simp at hr
    · simp only [Option.some.injEq] at hr
      rw [← hr]
      exact ⟨h, rfl⟩

theorem dispatch_inv (c c1 : LmConnection) (ev : List Event) (h : lifecycle_inv c)
    (hr : connection_incoming_dispatch c = some (c1, ev)) : lifecycle_inv c1 := by
  unfold connection_incoming_dispatch at hr
  split at hr
  · simp only [Option.some.injEq, Prod.mk.injEq] at hr
    rw [← hr.1]; exact h
  · obtain ⟨s, o, a, t, hc⟩ := handle_message_frame_any _ _ _ _ hr
    rw [hc]
    exact h

/-- Every operation keeps `lifecycle_inv`. -/
theorem step_inv (ext : Collaborators) (op : Operation) (c c1 : LmConnection)
    (h : lifecycle_inv c) (hs : step ext op c = some c1) : lifecycle_inv c1 := by
  cases op with
  | «open» sock function user_data notify =>
    simp only [step, Option.some.injEq] at hs
    rw [← hs]
    exact (open_inv ext sock c function user_data notify h).1
  | open_and_block sock schedule =>
    simp only [step, Option.map_eq_some'] at hs
    obtain ⟨r, hr, hc⟩ := hs
    rw [← hc]
    exact open_and_block_inv ext sock schedule c r h hr
  | close =>
    simp only [step, Option.some.injEq] at hs
    rw [← hs]
    unfold lm_connection_close
    split
    · exact h
    · simp only [connection_send]
      split
      · exact h
      · exact ⟨rfl, h.2⟩
  | in_event stanzas =>
    simp only [step, Option.some.injEq] at hs
    obtain ⟨q, hq⟩ := in_event_fields c stanzas
    rw [← hs, hq]
    exact h
  | error_event =>
    simp only [step, Option.some.injEq] at hs
    rw [← hs]
    exact ⟨rfl, h.2⟩
  | hup_event =>
    simp only [step, Option.some.injEq] at hs
    rw [← hs]
    exact ⟨rfl, h.2⟩
  | dispatch =>
    simp only [step, Option.map_eq_some'] at hs
    obtain ⟨r, hr, hc⟩ := hs
    rw [← hc]
    exact dispatch_inv c r.1 r.2 h hr
  | send message =>
    simp only [step, Option.some.injEq] at hs
    rw [← hs]; exact h
  | send_raw str =>
    simp only [step, Option.some.injEq] at hs
    rw [← hs]; exact h
  | send_with_reply gen_id message handler =>
    simp only [step, Option.some.injEq] at hs
    rw [← hs]; exact h
  | send_with_reply_and_block gen_id schedule message =>
    simp only [step, Option.map_eq_some'] at hs
    obtain ⟨r, hr, hc⟩ := hs
    rw [← hc]
    exact block_keeps lifecycle_inv inv_queue inv_close inv_source ext gen_id schedule c
      message r h hr
  | authenticate gen_id handler_addr username password resource function user_data notify =>
    simp only [step, Option.map_eq_some'] at hs
    obtain ⟨r, hr, hc⟩ := hs
    rw [← hc]
    exact (authenticate_inv ext gen_id handler_addr c username password resource
      function user_data notify r h hr).1
  | authenticate_and_block gen_id schedule username password resource =>
    simp only [step, Option.map_eq_some'] at hs
    obtain ⟨r, hr, hc⟩ := hs
    rw [← hc]
    exact authenticate_and_block_keeps lifecycle_inv inv_queue inv_close inv_source ext gen_id
      schedule c username password resource r h hr
  | register_message_handler handler type priority =>
    simp only [step, Option.some.injEq] at hs
    rw [← hs]; exact h
  | unregister_message_handler handler type =>
    simp only [step, Option.some.injEq] at hs
    rw [← hs]; exact h
  | set_server server =>
    simp only [step, Option.some.injEq] at hs
    rw [← hs]
    unfold lm_connection_set_server
    split <;> exact h
  | set_port port =>
    simp only [step, Option.some.injEq] at hs
    rw [← hs]
    unfold lm_connection_set_port
    split <;> exact h
  | set_use_ssl use_ssl =>
    simp only [step, Option.some.injEq] at hs
    rw [← hs]
    unfold lm_connection_set_use_ssl
    split <;> exact h
  | set_disconnect_function function user_data notify =>
    simp only [step, Option.some.injEq] at hs
    rw [← hs]; exact h
  | ref =>
    simp only [step, Option.some.injEq] at hs
    rw [← hs]; exact h

theorem run_inv (ext : Collaborators) :
    ∀ (ops : List Operation) (c c1 : LmConnection),
      lifecycle_inv c → run ext ops c = some c1 → lifecycle_inv c1 := by
  intro ops
  induction ops with
  | nil =>
    intro c c1 h hr
    simp only [run, Option.some.injEq] at hr
    rw [← hr]; exact h
  | cons op rest ih =>
    intro c c1 h hr
    simp only [run] at hr
    cases hs : step ext op c with
    | none => simp [hs] at hr
    | some c2 =>
      rw [hs] at hr
      exact ih c2 c1 (step_inv ext op c c2 h hs) hr

theorem new_inv (server : Option String) : lifecycle_inv (lm_connection_new server) :=
  ⟨rfl, rfl⟩

theorem open_stream_id (ext : Collaborators) (sock : SocketOutcome) (c : LmConnection)
    (function : Option Nat) (user_data : Nat) (notify : Option Nat) :
    (lm_connection_open ext sock c function user_data notify).2.1.stream_id = c.stream_id := by
  unfold lm_connection_open
  split
  · rfl
  · split
    · rfl
    · have h2 := do_open_stream_id sock
        { c with open_cb := some (_lm_utils_new_callback function user_data notify) }
      simp only []
      rcases hdo : connection_do_open sock
        { c with open_cb := some (_lm_utils_new_callback function user_data notify) }
        with ⟨st, c2, ev⟩
      rw [hdo] at h2
      simp only []
      split <;> exact h2

theorem authenticate_stream_id (ext : Collaborators) (gen_id : String) (handler_addr : Nat)
    (c : LmConnection) (username password resource : String)
    (function : Option Nat) (user_data : Nat) (notify : Option Nat)
    (r : Status × LmConnection × List Event)
    (hr : lm_connection_authenticate ext gen_id handler_addr c username password resource
      function user_data notify = some r) :
    r.2.1.stream_id = c.stream_id := by
  unfold lm_connection_authenticate at hr
  split at hr
  · simp only [Option.some.injEq] at hr
    rw [← hr]
  · simp only at hr
    split at hr
    · simp at hr
    · simp only [Option.some.injEq] at hr
      rw [← hr]
      rfl

theorem close_stream_id (c : LmConnection) :
    (lm_connection_close c).2.1.stream_id = c.stream_id := by
  unfold lm_connection_close
  split
  · rfl
  · simp only [connection_send]
    split <;> rfl

/-- Every operation other than a dispatch step and `lm_connection_open_and_block`
leaves the stream id as it was. -/
theorem step_stream_id (ext : Collaborators) (op : Operation) (c c1 : LmConnection)
    (hop : takes_stream_stanza op = false) (hs : step ext op c = some c1) :
    c1.stream_id = c.stream_id := by
  have hq : ∀ (c0 : LmConnection) (q : List LmMessage), c0.stream_id = c.stream_id →
      ({ c0 with incoming_messages := q } : LmConnection).stream_id = c.stream_id :=
    fun _ _ h => h
  have hc : ∀ c0 : LmConnection, c0.stream_id = c.stream_id →
      (connection_do_close c0).stream_id = c.stream_id := fun _ h => h
  have hsrc : ∀ (c0 : LmConnection) (b : Bool), c0.stream_id = c.stream_id →
      ({ c0 with incoming_source := b } : LmConnection).stream_id = c.stream_id :=
    fun _ _ h => h
  cases op with
  | «open» sock function user_data notify =>
    simp only [step, Option.some.injEq] at hs
    rw [← hs]
    exact open_stream_id ext sock c function user_data notify
  | open_and_block sock schedule => simp [takes_stream_stanza] at hop
  | close =>
    simp only [step, Option.some.injEq] at hs
    rw [← hs]
    exact close_stream_id c
  | in_event stanzas =>
    simp only [step, Option.some.injEq] at hs
    obtain ⟨q, hq1⟩ := in_event_fields c stanzas
    rw [← hs, hq1]
  | error_event =>
    simp only [step, Option.some.injEq] at hs
    rw [← hs]; rfl
  | hup_event =>
    simp only [step, Option.some.injEq] at hs
    rw [← hs]; rfl
  | dispatch => simp [takes_stream_stanza] at hop
  | send message =>
    simp only [step, Option.some.injEq] at hs
    rw [← hs]
  | send_raw str =>
    simp only [step, Option.some.injEq] at hs
    rw [← hs]
  | send_with_reply gen_id message handler =>
    simp only [step, Option.some.injEq] at hs
    rw [← hs]; rfl
  | send_with_reply_and_block gen_id schedule message =>
    simp only [step, Option.map_eq_some'] at hs
    obtain ⟨r, hr, hc1⟩ := hs
    rw [← hc1]
    exact block_keeps (fun c0 => c0.stream_id = c.stream_id) hq hc hsrc ext gen_id schedule c
      message r rfl hr
  | authenticate gen_id handler_addr username password resource function user_data notify =>
    simp only [step, Option.map_eq_some'] at hs
    obtain ⟨r, hr, hc1⟩ := hs
    rw [← hc1]
    exact authenticate_stream_id ext gen_id handler_addr c username password resource
      function user_data notify r hr
  | authenticate_and_block gen_id schedule username password resource =>
    simp only [step, Option.map_eq_some'] at hs
    obtain ⟨r, hr, hc1⟩ := hs
    rw [← hc1]
    exact authenticate_and_block_keeps (fun c0 => c0.stream_id = c.stream_id) hq hc hsrc ext
      gen_id schedule c username password resource r rfl hr
  | register_message_handler handler type priority =>
    simp only [step, Option.some.injEq] at hs
    rw [← hs]; rfl
  | unregister_message_handler handler type =>
    simp only [step, Option.some.injEq] at hs
    rw [← hs]; rfl
  | set_server server =>
    simp only [step, Option.some.injEq] at hs
    rw [← hs]
    unfold lm_connection_set_server
    split <;> rfl
  | set_port port =>
    simp only [step, Option.some.injEq] at hs
    rw [← hs]
    unfold lm_connection_set_port
    split <;> rfl
  | set_use_ssl use_ssl =>
    simp only [step, Option.some.injEq] at hs
    rw [← hs]
    unfold lm_connection_set_use_ssl
    split <;> rfl
  | set_disconnect_function function user_data notify =>
    simp only [step, Option.some.injEq] at hs
    rw [← hs]; rfl
  | ref =>
    simp only [step, Option.some.injEq] at hs
    rw [← hs]; rfl

theorem run_stream_id (ext : Collaborators) :
    ∀ (ops : List Operation) (c c1 : LmConnection),
      (∀ op ∈ ops, takes_stream_stanza op = false) → run ext ops c = some c1 →
      c1.stream_id = c.stream_id := by
  intro ops
  induction ops with
  | nil =>
    intro c c1 _ hr
    simp only [run, Option.some.injEq] at hr
    rw [← hr]
  | cons op rest ih =>
    intro c c1 hops hr
    simp only [run] at hr
    cases hs : step ext op c with
    | none => simp [hs] at hr
    | some c2 =>
      rw [hs] at hr
      rw [ih c2 c1 (fun o ho => hops o (List.mem_cons_of_mem _ ho)) hr]
      exact step_stream_id ext op c c2 (hops op (List.mem_cons_self _ _)) hs

theorem dispatch_stream_id (c c1 : LmConnection) (m : LmMessage) (rest : List LmMessage)
    (ev : List Event) (hq : c.incoming_messages = m :: rest)
    (hd : connection_incoming_dispatch c = some (c1, ev)) :
    c1.stream_id =
      if lm_message_get_type m = .LM_MESSAGE_TYPE_STREAM then
        lm_message_node_get_attribute m.node "id"
      else c.stream_id := by
  unfold connection_incoming_dispatch at hd
  rw [hq] at hd
  simp only at hd
  by_cases hs : lm_message_get_type m = .LM_MESSAGE_TYPE_STREAM
  · rw [if_pos hs]
    unfold connection_handle_message at hd
    rw [if_pos hs] at hd
    simp only [connection_stream_received, Option.some.injEq, Prod.mk.injEq] at hd
    rw [← hd.1]
  · rw [if_neg hs]
    obtain ⟨a, t, h⟩ := handle_message_frame _ _ _ _ hs hd
    rw [h]

/-! ## Authentication -/

theorem result_calls_append (e1 e2 : List Event) :
    result_calls (e1 ++ e2) = result_calls e1 ++ result_calls e2 := by
  induction e1 with
  | nil => rfl
  | cons e rest ih => cases e <;> simp [result_calls, ih]

theorem result_calls_free_callback (cb : Option LmCallback) :
    result_calls (_lm_utils_free_callback cb) = [] := by
  rcases cb with _ | ⟨f, ud, n⟩
  · rfl
  · cases n <;> rfl

theorem result_calls_call (cb : Option LmCallback) (result : Bool) :
    result_calls (call_result_function cb result) = called_once cb result := by
  rcases cb with _ | ⟨f, ud, n⟩
  · rfl
  · cases f <;> rfl

/-- The reply handler on a reply with a `type` attribute: the callback of the
authenticate slot is run once, with failure exactly for the text `error`, the
slot is emptied and the message is removed. -/
theorem auth_reply_run (c : LmConnection) (m : LmMessage) (t : String)
    (ht : lm_message_node_get_attribute m.node "type" = some t) :
    ∃ ev, connection_auth_reply c m
        = some (.LM_HANDLER_RESULT_REMOVE_MESSAGE, { c with auth_cb := none }, ev) ∧
      result_calls ev = called_once c.auth_cb (decide (t ≠ "error")) ∧
      invoked ev = [] := by
  refine ⟨call_result_function c.auth_cb
      (if t = "result" then true else if t = "error" then false else true)
      ++ _lm_utils_free_callback c.auth_cb, ?_, ?_, ?_⟩
  · simp only [connection_auth_reply, ht]
  · rw [result_calls_append, result_calls_free_callback, result_calls_call, List.append_nil]
    congr 1
    by_cases h1 : t = "result"
    · subst h1; decide
    · by_cases h2 : t = "error"
      · subst h2; decide
      · simp [h1, h2]
  · rw [invoked_append, invoked_free_callback, invoked_call_result_function]
    rfl

/-- A reply whose id is entered for the reply handler is handed to that handler
and to no other: the callback of the authenticate slot is run once and the slot
and the correlation entry are gone. -/
theorem auth_reply_dispatch (c : LmConnection) (m : LmMessage) (t : String)
    (h : LmMessageHandler)
    (ht : lm_message_node_get_attribute m.node "type" = some t)
    (hf : h.function = .connection_auth_reply)
    (hns : lm_message_get_type m ≠ .LM_MESSAGE_TYPE_STREAM)
    (hid : id_handler_of c m = some h) :
    ∃ c1 ev, connection_handle_message c m = some (c1, ev) ∧
      invoked ev = [(h.addr, m)] ∧
      result_calls ev = called_once c.auth_cb (decide (t ≠ "error")) ∧
      c1.auth_cb = none ∧ id_handler_of c1 m = none ∧
      c1.is_authenticated = c.is_authenticated := by
  obtain ⟨ev0, hrun, hcalls, hinv⟩ := auth_reply_run c m t ht
  unfold id_handler_of at hid
  cases hattr : lm_message_node_get_attribute m.node "id" with
  | none => rw [hattr] at hid; simp at hid
  | some id =>
    rw [hattr] at hid
    have hlook : g_hash_table_lookup c.id_handlers id = some h := hid
    have hone : _lm_message_handler_handle_message h c m
        = some (.LM_HANDLER_RESULT_REMOVE_MESSAGE, { c with auth_cb := none },
            Event.handler h.addr m :: ev0) := by
      unfold _lm_message_handler_handle_message
      rw [hf]
      simp only [hrun]
    refine ⟨{ c with auth_cb := none, id_handlers := g_hash_table_remove c.id_handlers id },
      Event.handler h.addr m :: ev0, ?_, ?_, ?_, rfl, ?_, rfl⟩
    · unfold connection_handle_message
      rw [if_neg hns]
      unfold id_handler_step
      simp only [hattr, hlook, hone, if_true]
    · simp [invoked, hinv]
    · simp only [result_calls, hcalls]
    · simp only [id_handler_of, hattr]
      exact lookup_remove_self _ _

/-- In no state reached from `lm_connection_new` is the connection marked
authenticated: no operation assigns `is_authenticated`. -/
theorem never_authenticated (ext : Collaborators) (server : Option String)
    (ops : List Operation) (c : LmConnection)
    (hreach : run ext ops (lm_connection_new server) = some c) :
    lm_connection_is_authenticated c = false :=
  (run_inv ext ops _ c (new_inv server) hreach).2

/-- The events of a blocking request begin with those of sending the request. -/
theorem block_events_start (ext : Collaborators) (gen_id : String)
    (schedule : List (List ReadyCallback)) (c : LmConnection) (message : LmMessage)
    (r : LmMessage × LmConnection × List Event)
    (hr : lm_connection_send_with_reply_and_block ext gen_id schedule c message = some r) :
    ∃ rest, r.2.2 = (lm_connection_send ext { c with incoming_source := false }
      (request_with_id message gen_id).2).2 ++ rest := by
  unfold lm_connection_send_with_reply_and_block at hr
  simp only at hr
  cases h2 : send_with_reply_and_block_loop (request_with_id message gen_id).1 schedule
      { c with incoming_source := false } 0 with
  | none => simp [h2] at hr
  | some y =>
    rw [h2] at hr
    simp only [Option.some.injEq] at hr
    rw [← hr]
    exact ⟨y.2.2, rfl⟩

theorem send_open_events (ext : Collaborators) (c : LmConnection) (m : LmMessage)
    (hopen : c.is_open = true) :
    lm_connection_send ext c m
      = (Status.success, [Event.write (send_text (ext.lm_message_node_to_string m.node))]) := by
  simp [lm_connection_send, connection_send, lm_connection_is_open, hopen]

/-! ## Properties of the connection -/

/-- C1: for a stanza that is not of the stream type, whose handlers return,
`connection_handle_message` runs exactly the handlers of `spec_routing`, in that
order: the correlation handler under the stanza's id if there is one, then,
unless it consumed the stanza, the type chain up to and including the first
handler that consumes.  Every handler run before the last one allowed more
handlers, and with no id match and an empty chain nothing is run and nothing
changes. -/
theorem C1_handle_message_routing (c : LmConnection) (m : LmMessage)
    (hns : lm_message_get_type m ≠ .LM_MESSAGE_TYPE_STREAM)
    (hret : ∀ h ∈ spec_routing c m, handler_returns h m = true) :
    (∃ c1 ev, connection_handle_message c m = some (c1, ev) ∧
      invoked ev = (spec_routing c m).map (fun h => (h.addr, m))) ∧
    (∀ h ∈ (spec_routing c m).dropLast,
      handler_verdict h m = .LM_HANDLER_RESULT_ALLOW_MORE_HANDLERS) ∧
    (id_handler_of c m = none → c.handlers (lm_message_get_type m) = [] →
      connection_handle_message c m = some (c, [])) := by
  refine ⟨?_, spec_routing_dropLast c m, ?_⟩
  · obtain ⟨a, ev, h, hinv⟩ := handle_message_shape c m hns hret
    exact ⟨_, ev, h, hinv⟩
  · intro hid hchain
    unfold connection_handle_message
    rw [if_neg hns]
    unfold id_handler_of at hid
    unfold id_handler_step
    cases hattr : lm_message_node_get_attribute m.node "id" with
    | none => simp [hchain, handlers_loop]
    | some id =>
      rw [hattr] at hid
      have hid2 : g_hash_table_lookup c.id_handlers id = none := hid
      simp [hid2, hchain, handlers_loop]

theorem C1_handle_message_routing_witness :
    lm_message_get_type demo_reply ≠ .LM_MESSAGE_TYPE_STREAM ∧
    (∃ c1 ev, connection_handle_message demo_routed demo_reply = some (c1, ev) ∧
      invoked ev = (spec_routing demo_routed demo_reply).map (fun h => (h.addr, demo_reply))) ∧
    (spec_routing demo_routed demo_reply).map (fun h => h.addr) = [10, 1, 2] :=
  ⟨by decide,
   (C1_handle_message_routing demo_routed demo_reply (by decide)
      (by intro h hh
          simp [spec_routing, id_handler_of, demo_routed, demo_reply, demo_stanza,
            lm_message_node_get_attribute, LmMessageNode.attributes, g_hash_table_lookup,
            handler_verdict, demo_handler, spec_chain_walk, lm_message_get_type] at hh
          rcases hh with h1 | h1 | h1 <;> subst h1 <;> rfl)).1,
   by decide⟩

/-- C2 (as amended): registrations for one stanza type whose priorities are
pairwise distinct 32-bit values less than 2^31 apart, starting from an empty
chain, leave the chain sorted by strictly descending priority and holding
exactly the registered entries, whatever the order of registration; a stanza of
that type, if it is not the stream type, on which every handler allows more
handlers is handed to the whole chain in that order, after the correlation
handler if its id has one; a stanza of the stream type is handed to no
handler. -/
theorem C2_register_descending_priority (c : LmConnection) (type : LmMessageType)
    (regs : List (LmMessageHandler × Int))
    (hempty : c.handlers type = [])
    (hdistinct : (regs.map Prod.snd).Nodup)
    (hgint : ∀ p ∈ regs.map Prod.snd, -2147483648 ≤ p ∧ p < 2147483648)
    (hnear : ∀ p ∈ regs.map Prod.snd, ∀ q ∈ regs.map Prod.snd, p - q < 2147483648) :
    List.Pairwise (fun a b : HandlerData => a.priority > b.priority)
      ((register_all c type regs).handlers type) ∧
    List.Perm ((register_all c type regs).handlers type)
      (regs.map (fun r => { priority := r.2, handler := r.1 })) ∧
    (∀ hd ∈ (register_all c type regs).handlers type,
      -2147483648 ≤ hd.priority ∧ hd.priority < 2147483648) ∧
    (∀ m : LmMessage, lm_message_get_type m = type → type ≠ .LM_MESSAGE_TYPE_STREAM →
      (∀ r ∈ regs, handler_verdict r.1 m = .LM_HANDLER_RESULT_ALLOW_MORE_HANDLERS) →
      (∀ h, id_handler_of c m = some h →
        handler_verdict h m = .LM_HANDLER_RESULT_ALLOW_MORE_HANDLERS) →
      ∃ c1 ev, connection_handle_message (register_all c type regs) m = some (c1, ev) ∧
        invoked ev = ((id_handler_of c m).toList ++
            ((register_all c type regs).handlers type).map (fun hd => hd.handler)).map
          (fun h => (h.addr, m))) ∧
    (∀ m : LmMessage, lm_message_get_type m = .LM_MESSAGE_TYPE_STREAM →
      ∃ c1 ev, connection_handle_message (register_all c type regs) m = some (c1, ev) ∧
        invoked ev = []) := by
  have hchain := register_all_chain type regs c (by rw [hempty]; exact List.Pairwise.nil)
    (by rw [hempty]; simpa using hdistinct)
    (by rw [hempty]; simpa using hnear)
  rw [hempty, List.nil_append] at hchain
  refine ⟨hchain.1, hchain.2, ?_, ?_, ?_⟩
  · intro hd hhd
    have := hchain.2.subset hhd
    obtain ⟨r, hr, hrd⟩ := List.mem_map.mp this
    rw [← hrd]
    exact hgint r.2 (List.mem_map.mpr ⟨r, hr, rfl⟩)
  · intro m hm hns hallow hidallow
    have hidof : id_handler_of (register_all c type regs) m = id_handler_of c m := by
      unfold id_handler_of
      rw [register_all_id_handlers]
    have hall : ∀ hd ∈ (register_all c type regs).handlers type,
        handler_verdict hd.handler m = .LM_HANDLER_RESULT_ALLOW_MORE_HANDLERS := by
      intro hd hhd
      have := hchain.2.subset hhd
      obtain ⟨r, hr, hrd⟩ := List.mem_map.mp this
      rw [← hrd]
      exact hallow r hr
    have hwalk := spec_chain_walk_all_allow m _ hall
    have hroute : spec_routing (register_all c type regs) m
        = (id_handler_of c m).toList ++
            ((register_all c type regs).handlers type).map (fun hd => hd.handler) := by
      unfold spec_routing
      rw [hidof, hm, hwalk]
      cases hi : id_handler_of c m with
      | none => rfl
      | some h => simp [hidallow h hi]
    have hret : ∀ h ∈ spec_routing (register_all c type regs) m,
        handler_returns h m = true := by
      intro h hh
      apply returns_of_allow
      rw [hroute] at hh
      rcases List.mem_append.mp hh with h1 | h1
      · exact hidallow h (by simpa [Option.mem_toList] using h1)
      · obtain ⟨hd, hhd, heq⟩ := List.mem_map.mp h1
        rw [← heq]
        exact hall hd hhd
    obtain ⟨a, ev, hh, hinv⟩ := handle_message_shape (register_all c type regs) m
      (by rw [hm]; exact hns) hret
    exact ⟨_, ev, hh, by rw [hinv, hroute]⟩
  · intro m hs
    refine ⟨{ register_all c type regs with
                stream_id := lm_message_node_get_attribute m.node "id", open_cb := none },
      call_result_function (register_all c type regs).open_cb true ++
        _lm_utils_free_callback (register_all c type regs).open_cb, ?_, ?_⟩
    · unfold connection_handle_message
      rw [if_pos hs]
      rfl
    · rw [invoked_append, invoked_free_callback, invoked_call_result_function]
      rfl

theorem C2_register_descending_priority_witness :
    (lm_connection_new none).handlers .LM_MESSAGE_TYPE_IQ = [] ∧
    ([((demo_handler 1 .LM_HANDLER_RESULT_ALLOW_MORE_HANDLERS), (2 : Int)),
      ((demo_handler 2 .LM_HANDLER_RESULT_ALLOW_MORE_HANDLERS), 3),
      ((demo_handler 3 .LM_HANDLER_RESULT_ALLOW_MORE_HANDLERS), 1)].map Prod.snd).Nodup ∧
    List.Pairwise (fun a b : HandlerData => a.priority > b.priority)
      ((register_all (lm_connection_new none) .LM_MESSAGE_TYPE_IQ
        [((demo_handler 1 .LM_HANDLER_RESULT_ALLOW_MORE_HANDLERS), 2),
         ((demo_handler 2 .LM_HANDLER_RESULT_ALLOW_MORE_HANDLERS), 3),
         ((demo_handler 3 .LM_HANDLER_RESULT_ALLOW_MORE_HANDLERS), 1)]).handlers
        .LM_MESSAGE_TYPE_IQ) ∧
    ((register_all (lm_connection_new none) .LM_MESSAGE_TYPE_IQ
        [((demo_handler 1 .LM_HANDLER_RESULT_ALLOW_MORE_HANDLERS), 2),
         ((demo_handler 2 .LM_HANDLER_RESULT_ALLOW_MORE_HANDLERS), 3),
         ((demo_handler 3 .LM_HANDLER_RESULT_ALLOW_MORE_HANDLERS), 1)]).handlers
        .LM_MESSAGE_TYPE_IQ).map (fun hd => (hd.handler.addr, hd.priority))
      = [(2, 3), (1, 2), (3, 1)] :=
  ⟨rfl, by decide,
   (C2_register_descending_priority (lm_connection_new none) .LM_MESSAGE_TYPE_IQ
      [((demo_handler 1 .LM_HANDLER_RESULT_ALLOW_MORE_HANDLERS), 2),
       ((demo_handler 2 .LM_HANDLER_RESULT_ALLOW_MORE_HANDLERS), 3),
       ((demo_handler 3 .LM_HANDLER_RESULT_ALLOW_MORE_HANDLERS), 1)] rfl (by decide)
      (by decide) (by decide)).1,
   by decide⟩

/-- C2 (as stated) fails twice.  With the distinct priorities 2147483647 and -2
registered in that order, the 32-bit difference computed for the second
registration is negative, the new entry goes in front, and an `iq` stanza is
handed to the handler of priority -2 before the one of priority 2147483647.
And a handler registered for the stream type is not handed a stream stanza. -/
theorem C2_counterexample :
    ((register_all (lm_connection_new none) .LM_MESSAGE_TYPE_IQ
        [((demo_handler 1 .LM_HANDLER_RESULT_ALLOW_MORE_HANDLERS), 2147483647),
         ((demo_handler 2 .LM_HANDLER_RESULT_ALLOW_MORE_HANDLERS), -2)]).handlers
        .LM_MESSAGE_TYPE_IQ).map (fun hd => (hd.handler.addr, hd.priority))
      = [(2, -2), (1, 2147483647)] ∧
    (connection_handle_message
        (register_all (lm_connection_new none) .LM_MESSAGE_TYPE_IQ
          [((demo_handler 1 .LM_HANDLER_RESULT_ALLOW_MORE_HANDLERS), 2147483647),
           ((demo_handler 2 .LM_HANDLER_RESULT_ALLOW_MORE_HANDLERS), -2)])
        demo_request).map (fun r => (invoked r.2).map Prod.fst) = some [2, 1] ∧
    (connection_handle_message
        (register_all (lm_connection_new none) .LM_MESSAGE_TYPE_STREAM
          [((demo_handler 1 .LM_HANDLER_RESULT_ALLOW_MORE_HANDLERS), 2)])
        demo_stream).map (fun r => (invoked r.2).map Prod.fst) = some [] :=
  ⟨by decide, by decide, by decide⟩
/-- C3 (as amended): after `lm_connection_send_with_reply` has entered a handler
under the request id, a stanza (not of the stream type) carrying that id is
handed to that handler first, then, unless the handler consumed it, to the walk
of its type chain; the id is absent from the map afterwards whatever the
verdict; the handler is invoked exactly once when it is not also an entry of
that chain; and a further stanza with the same id goes to its type chain only,
so the handler is not invoked again unless it is an entry of that chain. -/
theorem C3_correlation_one_shot (ext : Collaborators) (gen_id : String) (c : LmConnection)
    (req : LmMessage) (h : LmMessageHandler) (m : LmMessage)
    (hns : lm_message_get_type m ≠ .LM_MESSAGE_TYPE_STREAM)
    (hid : lm_message_node_get_attribute m.node "id" = some (request_with_id req gen_id).1)
    (hret : handler_returns h m = true)
    (hchain : ∀ h1 ∈ spec_chain_walk m (c.handlers (lm_message_get_type m)),
      handler_returns h1 m = true) :
    ∃ c2 ev,
      connection_handle_message (lm_connection_send_with_reply ext gen_id c req h).2.1 m
        = some (c2, ev) ∧
      invoked ev = (h.addr, m) ::
        (if handler_verdict h m = .LM_HANDLER_RESULT_REMOVE_MESSAGE then []
         else (spec_chain_walk m (c.handlers (lm_message_get_type m))).map
           (fun h1 => (h1.addr, m))) ∧
      g_hash_table_lookup c2.id_handlers (request_with_id req gen_id).1 = none ∧
      ((∀ hd ∈ c.handlers (lm_message_get_type m), hd.handler.addr ≠ h.addr) →
        invocations_of h.addr ev = 1) ∧
      ∀ m2 : LmMessage, lm_message_get_type m2 ≠ .LM_MESSAGE_TYPE_STREAM →
        lm_message_node_get_attribute m2.node "id" = some (request_with_id req gen_id).1 →
        (∀ h1 ∈ spec_chain_walk m2 (c.handlers (lm_message_get_type m2)),
          handler_returns h1 m2 = true) →
        ∃ c3 ev2, connection_handle_message c2 m2 = some (c3, ev2) ∧
          invoked ev2 = (spec_chain_walk m2 (c.handlers (lm_message_get_type m2))).map
            (fun h1 => (h1.addr, m2)) ∧
          ((∀ hd ∈ c.handlers (lm_message_get_type m2), hd.handler.addr ≠ h.addr) →
            invocations_of h.addr ev2 = 0) := by
  have hc1 : (lm_connection_send_with_reply ext gen_id c req h).2.1
      = { c with id_handlers :=
            g_hash_table_insert c.id_handlers (request_with_id req gen_id).1 h } := rfl
  rw [hc1]
  generalize hk : (request_with_id req gen_id).1 = k at hid ⊢
  have hidof : id_handler_of
      { c with id_handlers := g_hash_table_insert c.id_handlers k h } m = some h := by
    simp only [id_handler_of, hid]
    exact lookup_insert_self _ _ _
  have hroute : spec_routing { c with id_handlers := g_hash_table_insert c.id_handlers k h } m
      = h :: (if handler_verdict h m = .LM_HANDLER_RESULT_REMOVE_MESSAGE then []
              else spec_chain_walk m (c.handlers (lm_message_get_type m))) := by
    unfold spec_routing
    rw [hidof]
    simp only
    split <;> rfl
  have hret1 : ∀ h1 ∈ spec_routing
      { c with id_handlers := g_hash_table_insert c.id_handlers k h } m,
      handler_returns h1 m = true := by
    intro h1 hh1
    rw [hroute] at hh1
    rcases List.mem_cons.mp hh1 with e | e
    · rw [e]; exact hret
    · split at e
      · simp at e
      · exact hchain h1 e
  obtain ⟨a, ev, hh, hinv⟩ := handle_message_shape _ m hns hret1
  rw [hidof, hid] at hh
  simp only at hh
  have hinv1 : invoked ev = (h.addr, m) ::
      (if handler_verdict h m = .LM_HANDLER_RESULT_REMOVE_MESSAGE then []
       else (spec_chain_walk m (c.handlers (lm_message_get_type m))).map
         (fun h1 => (h1.addr, m))) := by
    rw [hinv, hroute]
    split <;> simp
  refine ⟨_, ev, hh, hinv1, ?_, ?_, ?_⟩
  · exact lookup_remove_self _ _
  · intro hno
    unfold invocations_of
    rw [hinv1]
    have hnil := chain_walk_no_invocation m h.addr _ hno
    split
    · simp
    · simp [List.filter_cons, hnil]
  · intro m2 hns2 hid2 hchain2
    have hidof2 : id_handler_of
        { c with auth_cb := a,
                 id_handlers := g_hash_table_remove (g_hash_table_insert c.id_handlers k h) k }
        m2 = none := by
      simp only [id_handler_of, hid2]
      exact lookup_remove_self _ _
    have hroute2 : spec_routing
        { c with auth_cb := a,
                 id_handlers := g_hash_table_remove (g_hash_table_insert c.id_handlers k h) k }
        m2 = spec_chain_walk m2 (c.handlers (lm_message_get_type m2)) := by
      unfold spec_routing
      rw [hidof2]
    obtain ⟨a2, ev2, hh2, hinv2⟩ := handle_message_shape _ m2 hns2
      (by rw [hroute2]; exact hchain2)
    rw [hroute2] at hinv2
    refine ⟨_, ev2, hh2, hinv2, ?_⟩
    intro hno
    unfold invocations_of
    rw [hinv2, chain_walk_no_invocation m2 h.addr _ hno]
    rfl

theorem C3_correlation_one_shot_witness :
    lm_message_get_type demo_reply ≠ .LM_MESSAGE_TYPE_STREAM ∧
    lm_message_node_get_attribute demo_reply.node "id"
      = some (request_with_id demo_request "g").1 ∧
    ∃ c2 ev,
      connection_handle_message
        (lm_connection_send_with_reply demo_ext "g" demo_routed demo_request
          (demo_handler 20 .LM_HANDLER_RESULT_REMOVE_MESSAGE)).2.1 demo_reply = some (c2, ev) ∧
      invoked ev = [(20, demo_reply)] ∧
      g_hash_table_lookup c2.id_handlers "q1" = none ∧
      invocations_of 20 ev = 1 := by
  refine ⟨by decide, by decide, ?_⟩
  obtain ⟨c2, ev, h1, h2, h3, h4, _⟩ :=
    C3_correlation_one_shot demo_ext "g" demo_routed demo_request
      (demo_handler 20 .LM_HANDLER_RESULT_REMOVE_MESSAGE) demo_reply (by decide) (by decide) rfl
      (chain_walk_returns _ _ (by decide))
  exact ⟨c2, ev, h1, h2, h3, h4 (by decide)⟩

/-- C3 (as stated) fails: with the handler object 7 both entered under `q1` by
`lm_connection_send_with_reply` and registered in the `iq` chain, the reply with
id `q1` is handed to it twice in one dispatch. -/
theorem C3_counterexample :
    ∃ c2 ev,
      connection_handle_message
        (lm_connection_send_with_reply demo_ext "g" demo_shared demo_request
          (demo_handler 7 .LM_HANDLER_RESULT_ALLOW_MORE_HANDLERS)).2.1 demo_reply = some (c2, ev) ∧
      invocations_of 7 ev = 2 ∧
      g_hash_table_lookup c2.id_handlers "q1" = none :=
  ⟨_, _, rfl, by decide, rfl⟩
/-- C4: a stanza of the stream type makes `connection_handle_message` store the
stanza's `id` attribute as stream id, run the callback of the open slot (if a
function is stored there) exactly once with result success, empty the open
slot, and touch nothing else: no handler of the correlation map or of a type
chain is invoked and no entry of the map is removed. -/
theorem C4_stream_stanza (c : LmConnection) (m : LmMessage)
    (hs : lm_message_get_type m = .LM_MESSAGE_TYPE_STREAM) :
    ∃ ev, connection_handle_message c m
        = some ({ c with stream_id := lm_message_node_get_attribute m.node "id",
                         open_cb := none }, ev) ∧
      invoked ev = [] ∧
      result_calls ev =
        (match c.open_cb with
         | some cb =>
           match cb.func with
           | some f => [(f, true, cb.user_data)]
           | none => []
         | none => []) := by
  refine ⟨call_result_function c.open_cb true ++ _lm_utils_free_callback c.open_cb, ?_, ?_, ?_⟩
  · unfold connection_handle_message
    rw [if_pos hs]
    rfl
  · rw [invoked_append, invoked_free_callback, invoked_call_result_function]
    rfl
  · rcases hcb : c.open_cb with _ | ⟨f, ud, n⟩
    · rfl
    · cases f <;> cases n <;> rfl

theorem C4_stream_stanza_witness :
    lm_message_get_type demo_stream = .LM_MESSAGE_TYPE_STREAM ∧
    ∃ ev, connection_handle_message demo_awaiting demo_stream
        = some ({ demo_awaiting with stream_id := some "abc123", open_cb := none }, ev) ∧
      invoked ev = [] ∧ result_calls ev = [(100, true, 5)] :=
  ⟨rfl, C4_stream_stanza demo_awaiting demo_stream rfl⟩
/-- C5: stanzas handed by the parser to `connection_new_message_cb` on an empty
queue are queued in that order and nothing else happens; `k` runs of
`connection_incoming_dispatch` hand exactly the first `k` of them, in order and
one per run, to `connection_handle_message` and leave the others queued; after
as many runs as there are stanzas the queue is empty; the runs return whenever
the handlers do; and a run on an empty queue dispatches nothing. -/
theorem C5_fifo_dispatch (c : LmConnection) (ms : List LmMessage)
    (hq : c.incoming_messages = []) :
    lm_parser_parse c ms = { c with incoming_messages := ms } ∧
    (∀ m, connection_new_message_cb c m
      = ({ c with incoming_messages := c.incoming_messages ++ [m] }, [])) ∧
    (∀ k ≤ ms.length,
      dispatch_steps k (lm_parser_parse c ms)
        = (handle_all c (ms.take k)).map
            (fun x => ({ x.1 with incoming_messages := ms.drop k }, x.2))) ∧
    (∀ c1 ev, dispatch_steps ms.length (lm_parser_parse c ms) = some (c1, ev) →
      c1.incoming_messages = [] ∧ handle_all c ms = some (c1, ev)) ∧
    ((∀ m ∈ ms, (lm_message_node_get_attribute m.node "type").isSome = true) →
      ∃ c1 ev, dispatch_steps ms.length (lm_parser_parse c ms) = some (c1, ev)) ∧
    connection_incoming_dispatch c = some (c, []) := by
  have hparse : lm_parser_parse c ms = { c with incoming_messages := ms } := by
    rw [parser_parse_queue, hq, List.nil_append]
  have hsteps : ∀ k ≤ ms.length,
      dispatch_steps k (lm_parser_parse c ms)
        = (handle_all c (ms.take k)).map
            (fun x => ({ x.1 with incoming_messages := ms.drop k }, x.2)) := by
    intro k hk
    rw [hparse]
    exact dispatch_steps_handle_all k ms c hk
  have hfull : dispatch_steps ms.length (lm_parser_parse c ms)
      = (handle_all c ms).map (fun x => ({ x.1 with incoming_messages := [] }, x.2)) := by
    have := hsteps ms.length (Nat.le_refl _)
    rw [List.take_length, List.drop_length] at this
    exact this
  refine ⟨hparse, fun m => rfl, hsteps, ?_, ?_, ?_⟩
  · intro c1 ev h
    rw [hfull] at h
    cases hall : handle_all c ms with
    | none => simp [hall] at h
    | some x =>
      obtain ⟨c2, ev2⟩ := x
      rw [hall] at h
      simp only [Option.map_some', Option.some.injEq, Prod.mk.injEq] at h
      have hc2 : c2.incoming_messages = [] := by
        rw [handle_all_keeps_queue ms c c2 ev2 hall, hq]
      have hc : c2 = c1 := by
        rw [← h.1, ← hc2]
      rw [← hc, ← h.2]
      exact ⟨hc2, rfl⟩
  · intro ht
    obtain ⟨c1, ev, h⟩ := handle_all_total ms c ht
    rw [hfull, h]
    exact ⟨_, _, rfl⟩
  · unfold connection_incoming_dispatch
    rw [hq]

theorem C5_fifo_dispatch_witness :
    demo_routed.incoming_messages = [] ∧
    (∀ c1 ev,
      dispatch_steps 2 (lm_parser_parse demo_routed [demo_reply, demo_request]) = some (c1, ev) →
      c1.incoming_messages = [] ∧
        handle_all demo_routed [demo_reply, demo_request] = some (c1, ev)) ∧
    (dispatch_steps 2 (lm_parser_parse demo_routed [demo_reply, demo_request])).map
        (fun x => (invoked x.2).map Prod.fst) = some [10, 1, 2, 1, 2] :=
  ⟨rfl, (C5_fifo_dispatch demo_routed [demo_reply, demo_request] rfl).2.2.2.1, by decide⟩
/-- With an empty queue and a channel to read from, a reply carrying the request
id that arrives alone in the first loop iteration is what
`lm_connection_send_with_reply_and_block` returns, and the queue is empty again
on return. -/
theorem block_single_reply (ext : Collaborators) (gen_id : String) (c : LmConnection)
    (req reply : LmMessage) (fd : Nat)
    (hq : c.incoming_messages = []) (hch : c.io_channel = some fd)
    (hid : lm_message_node_get_attribute reply.node "id" = some (request_with_id req gen_id).1) :
    ∃ ev, lm_connection_send_with_reply_and_block ext gen_id [[.in_event [reply]]] c req
        = some (reply, { c with incoming_source := true }, ev) := by
  simp [lm_connection_send_with_reply_and_block, send_with_reply_and_block_loop,
    g_main_context_iteration, connection_in_event, hch, parser_parse_queue, hq, hid]

/-- C6 (evaluation at the failing input): the queue is empty, the request has id
`q1`.  When the loop first brings the unrelated stanza `x1` and then the reply
with id `q1`, the reply is never looked at: however many further iterations
without arrival follow, the call does not return, the reply sitting in the
queue.  When a second stanza with id `q1` follows, the call returns that second
stanza, not the first, and the first stays in the queue. -/
theorem C6_block_skips_reply :
    (∀ n : Nat, lm_connection_send_with_reply_and_block demo_ext "g"
        ([.in_event [demo_other]] :: [.in_event [demo_reply]] ::
          List.replicate n [.in_event []]) demo_open demo_request = none) ∧
    (∃ c1 ev, lm_connection_send_with_reply_and_block demo_ext "g"
        [[.in_event [demo_other]], [.in_event [demo_reply]], [.in_event [demo_reply_late]]]
        demo_open demo_request = some (demo_reply_late, c1, ev) ∧
      c1.incoming_messages = [demo_reply]) ∧
    lm_message_node_get_attribute demo_reply.node "id" = some "q1" ∧
    demo_reply_late.sub_type ≠ demo_reply.sub_type := by
  refine ⟨?_, ⟨_, _, rfl, rfl⟩, by decide, by decide⟩
  intro n
  have hidle := block_loop_idle "q1" n
    { demo_open with incoming_source := false, incoming_messages := [demo_reply] } 1
    (Nat.le_refl 1)
  have h2 : send_with_reply_and_block_loop "q1"
      ([.in_event [demo_reply]] :: List.replicate n [.in_event []])
      { demo_open with incoming_source := false, incoming_messages := [] } 1 = none := by
    rw [send_with_reply_and_block_loop]
    have hit : g_main_context_iteration
        { demo_open with incoming_source := false, incoming_messages := [] }
        [.in_event [demo_reply]]
        = ({ demo_open with incoming_source := false, incoming_messages := [demo_reply] }, []) :=
      rfl
    rw [hit]
    simp only [List.length_singleton, gt_iff_lt, lt_self_iff_false, if_false]
    rw [hidle]
  have h1 : send_with_reply_and_block_loop "q1"
      ([.in_event [demo_other]] :: [.in_event [demo_reply]] :: List.replicate n [.in_event []])
      { demo_open with incoming_source := false } 0 = none := by
    rw [send_with_reply_and_block_loop]
    have hit : g_main_context_iteration { demo_open with incoming_source := false }
        [.in_event [demo_other]]
        = ({ demo_open with incoming_source := false, incoming_messages := [demo_other] }, []) :=
      rfl
    rw [hit]
    have hne : lm_message_node_get_attribute demo_other.node "id" ≠ some "q1" := by decide
    simp only [List.length_singleton, gt_iff_lt, Nat.lt_one_iff, if_true, List.getLast?_singleton,
      List.dropLast_single, hne, if_false]
    rw [h2]
  have hreq : request_with_id demo_request "g" = ("q1", demo_request) := rfl
  simp only [lm_connection_send_with_reply_and_block, hreq]
  rw [h1]
/-- C7 (evaluation at the failing input): a stanza queued before a blocking call
is lost when the first loop iteration completes no stanza.  With `a1` queued,
`lm_connection_send_with_reply_and_block` pops it as if newly arrived and
returns with only `x1` queued; with a stream stanza queued on a closed
connection, `lm_connection_open_and_block` takes it for the server's answer and
returns with an empty queue. -/
theorem C7_block_drops_queued :
    (∃ c1 ev, lm_connection_send_with_reply_and_block demo_ext "g"
        [[.in_event []], [.in_event [demo_other, demo_reply]]]
        { demo_open with incoming_messages := [demo_queued] } demo_request
          = some (demo_reply, c1, ev) ∧
      c1.incoming_messages = [demo_other]) ∧
    (∃ c1 ev, lm_connection_open_and_block demo_ext (.connected 3) [[.in_event []]]
        { lm_connection_new (some "example.org") with incoming_messages := [demo_stream] }
          = some (Status.success, c1, ev) ∧
      c1.incoming_messages = [] ∧ c1.stream_id = some "abc123") :=
  ⟨⟨_, _, rfl, rfl⟩, ⟨_, _, rfl, rfl, rfl⟩⟩
/-- C8 (as amended): `lm_connection_open` and `lm_connection_open_and_block`
fail on an open connection with the code `LM_ERROR_CONNECTION_NOT_OPEN` and the
message "Connection is already open, ...", and on a closed connection without
server with the code `LM_ERROR_CONNECTION_OPEN`; in both cases nothing is
written, no callback runs and the connection is left exactly as it was. -/
theorem C8_open_refused (ext : Collaborators) (sock : SocketOutcome)
    (schedule : List (List ReadyCallback)) (c : LmConnection)
    (function : Option Nat) (user_data : Nat) (notify : Option Nat) :
    (c.is_open = true →
      lm_connection_open ext sock c function user_data notify
        = (Status.fail .LM_ERROR_CONNECTION_NOT_OPEN
            "Connection is already open, call lm_connection_close() first", c, []) ∧
      lm_connection_open_and_block ext sock schedule c
        = some (Status.fail .LM_ERROR_CONNECTION_NOT_OPEN
            "Connection is already open, call lm_connection_close() first", c, [])) ∧
    (c.is_open = false → c.server = none →
      lm_connection_open ext sock c function user_data notify
        = (Status.fail .LM_ERROR_CONNECTION_OPEN
            "You need to set the server hostname in the call to lm_connection_new()", c, []) ∧
      lm_connection_open_and_block ext sock schedule c
        = some (Status.fail .LM_ERROR_CONNECTION_OPEN
            "You need to set the server hostname in the call to lm_connection_new()", c, [])) := by
  constructor
  · intro ho
    simp [lm_connection_open, lm_connection_open_and_block, lm_connection_is_open, ho]
  · intro hc hs
    simp [lm_connection_open, lm_connection_open_and_block, lm_connection_is_open, hc, hs]

theorem C8_open_refused_witness :
    demo_open.is_open = true ∧
    (lm_connection_new none).is_open = false ∧ (lm_connection_new none).server = none ∧
    lm_connection_open demo_ext (.connected 4) demo_open (some 100) 5 none
      = (Status.fail .LM_ERROR_CONNECTION_NOT_OPEN
          "Connection is already open, call lm_connection_close() first", demo_open, []) ∧
    lm_connection_open_and_block demo_ext (.connected 4) [] (lm_connection_new none)
      = some (Status.fail .LM_ERROR_CONNECTION_OPEN
          "You need to set the server hostname in the call to lm_connection_new()",
          lm_connection_new none, []) :=
  ⟨rfl, rfl, rfl,
   ((C8_open_refused demo_ext (.connected 4) [] demo_open (some 100) 5 none).1 rfl).1,
   ((C8_open_refused demo_ext (.connected 4) [] (lm_connection_new none) none 0 none).2
      rfl rfl).2⟩

/-- C8 (as stated) fails: the failure of `lm_connection_open` on an open
connection carries the very error code that `lm_connection_close` reports on a
connection that is not open, so it is not an error kind of its own. -/
theorem C8_counterexample :
    ∃ e1 e2 : GError,
      (lm_connection_open demo_ext (.connected 4) demo_open (some 100) 5 none).1
        = (false, some e1) ∧
      (lm_connection_close (lm_connection_new (some "example.org"))).1 = (false, some e2) ∧
      e1.code = e2.code ∧ e1.code = .LM_ERROR_CONNECTION_NOT_OPEN :=
  ⟨_, _, rfl, rfl, rfl, rfl⟩
/-- C9: on a connection that is not open, `lm_connection_authenticate`,
`lm_connection_authenticate_and_block`, `lm_connection_send`,
`lm_connection_send_raw` and `lm_connection_close` all return failure with the
code `LM_ERROR_CONNECTION_NOT_OPEN`, write nothing, run no callback and leave
the connection exactly as it was. -/
theorem C9_not_open_refused (ext : Collaborators) (gen_id : String) (handler_addr : Nat)
    (schedule : List (List ReadyCallback)) (c : LmConnection)
    (username password resource : String)
    (function : Option Nat) (user_data : Nat) (notify : Option Nat)
    (m : LmMessage) (str : String)
    (hclosed : c.is_open = false) :
    lm_connection_authenticate ext gen_id handler_addr c username password resource
        function user_data notify
      = some (Status.fail .LM_ERROR_CONNECTION_NOT_OPEN
          "Connection is not open, call lm_connection_open() first", c, []) ∧
    lm_connection_authenticate_and_block ext gen_id schedule c username password resource
      = some (Status.fail .LM_ERROR_CONNECTION_NOT_OPEN
          "Connection is not open, call lm_connection_open() first", c, []) ∧
    lm_connection_send ext c m
      = (Status.fail .LM_ERROR_CONNECTION_NOT_OPEN
          "Connection is not open, call lm_connection_open() first", []) ∧
    lm_connection_send_raw c str
      = (Status.fail .LM_ERROR_CONNECTION_NOT_OPEN
          "Connection is not open, call lm_connection_open() first", []) ∧
    lm_connection_close c
      = (Status.fail .LM_ERROR_CONNECTION_NOT_OPEN
          "Connection is not open, call lm_connection_open() first", c, []) := by
  simp [lm_connection_authenticate, lm_connection_authenticate_and_block, lm_connection_send,
    lm_connection_send_raw, lm_connection_close, connection_send, lm_connection_is_open,
    hclosed]

theorem C9_not_open_refused_witness :
    (lm_connection_new (some "example.org")).is_open = false ∧
    lm_connection_authenticate demo_ext "g" 50 (lm_connection_new (some "example.org"))
        "user" "secret" "home" (some 100) 5 none
      = some (Status.fail .LM_ERROR_CONNECTION_NOT_OPEN
          "Connection is not open, call lm_connection_open() first",
          lm_connection_new (some "example.org"), []) :=
  ⟨rfl, (C9_not_open_refused demo_ext "g" 50 [] (lm_connection_new (some "example.org"))
      "user" "secret" "home" (some 100) 5 none demo_request "<presence/>" rfl).1⟩
/-- C10: on an open connection `lm_connection_send` succeeds and writes one
text, a prefix of the serialised stanza, in which the closing stream tag does
not occur; when the serialised stanza holds no such tag, the text written is
the serialised stanza unchanged. -/
theorem C10_send_strips_closing_tag (ext : Collaborators) (c : LmConnection) (m : LmMessage)
    (hopen : c.is_open = true) :
    ∃ out : String,
      lm_connection_send ext c m = (Status.success, [Event.write out]) ∧
      ¬ ("</stream:stream>".data <:+: out.data) ∧
      out.data <+: (ext.lm_message_node_to_string m.node).data ∧
      (¬ ("</stream:stream>".data <:+: (ext.lm_message_node_to_string m.node).data) →
        out = ext.lm_message_node_to_string m.node) := by
  refine ⟨send_text (ext.lm_message_node_to_string m.node), ?_, ?_, ?_, ?_⟩
  · simp [lm_connection_send, connection_send, lm_connection_is_open, hopen]
  · unfold send_text
    cases hs : strstr (ext.lm_message_node_to_string m.node).data "</stream:stream>".data with
    | none => exact strstr_none_absent _ _ hs
    | some i => exact strstr_some_take_absent _ (by decide) _ i hs
  · unfold send_text
    cases hs : strstr (ext.lm_message_node_to_string m.node).data "</stream:stream>".data with
    | none => exact List.prefix_refl _
    | some i => exact List.take_prefix _ _
  · intro hno
    unfold send_text
    cases hs : strstr (ext.lm_message_node_to_string m.node).data "</stream:stream>".data with
    | none => rfl
    | some i => exact absurd (strstr_some_occurs _ _ i hs) hno

theorem C10_send_strips_closing_tag_witness :
    demo_open.is_open = true ∧
    (∃ out : String,
      lm_connection_send demo_ext demo_open
          (demo_stanza .LM_MESSAGE_TYPE_MESSAGE .LM_MESSAGE_SUB_TYPE_NOT_SET
            "<message>a</stream:stream>b</message>" [])
        = (Status.success, [Event.write out]) ∧
      ¬ ("</stream:stream>".data <:+: out.data)) ∧
    send_text "<message>a</stream:stream>b</message>" = "<message>a" := by
  refine ⟨rfl, ?_, by decide⟩
  obtain ⟨out, h1, h2, _⟩ := C10_send_strips_closing_tag demo_ext demo_open
    (demo_stanza .LM_MESSAGE_TYPE_MESSAGE .LM_MESSAGE_SUB_TYPE_NOT_SET
      "<message>a</stream:stream>b</message>" []) rfl
  exact ⟨out, h1, h2⟩
/-- C11: `lm_connection_close` on an open connection, the error event and the
hangup event each leave the connection closed (not open, no channel) and fire
the stored disconnect callback exactly once, with reason OK, ERROR and HUP
respectively; the disconnect slot is left as it was, so a further event on the
closed connection fires the same callback again. -/
theorem C11_disconnect_reported (c : LmConnection) :
    (c.is_open = true →
      ∃ ev, lm_connection_close c
          = (Status.success, { c with io_channel := none, is_open := false }, ev) ∧
        disconnect_calls ev = fired_once c .LM_DISCONNECT_REASON_OK ∧
        disconnect_calls (connection_hup_event (lm_connection_close c).2.1).2
          = fired_once c .LM_DISCONNECT_REASON_HUP) ∧
    (∃ ev, connection_error_event c = ({ c with io_channel := none, is_open := false }, ev) ∧
      disconnect_calls ev = fired_once c .LM_DISCONNECT_REASON_ERROR ∧
      disconnect_calls (connection_error_event (connection_error_event c).1).2
        = fired_once c .LM_DISCONNECT_REASON_ERROR) ∧
    (∃ ev, connection_hup_event c = ({ c with io_channel := none, is_open := false }, ev) ∧
      disconnect_calls ev = fired_once c .LM_DISCONNECT_REASON_HUP ∧
      disconnect_calls (connection_error_event (connection_hup_event c).1).2
        = fired_once c .LM_DISCONNECT_REASON_ERROR) := by
  refine ⟨?_, ?_, ?_⟩
  · intro ho
    have hclose : lm_connection_close c
        = (Status.success, { c with io_channel := none, is_open := false },
            [Event.write "</stream:stream>"] ++ [Event.flush] ++
              connection_signal_disconnect { c with io_channel := none, is_open := false }
                .LM_DISCONNECT_REASON_OK) := by
      simp [lm_connection_close, connection_send, lm_connection_is_open, ho, connection_do_close,
        Status.success]
    refine ⟨_, hclose, ?_, ?_⟩
    · simp only [List.singleton_append, disconnect_calls]
      exact disconnect_calls_signal _ _
    · rw [hclose]
      exact disconnect_calls_signal _ _
  · exact ⟨_, rfl, disconnect_calls_signal _ _, disconnect_calls_signal _ _⟩
  · exact ⟨_, rfl, disconnect_calls_signal _ _, disconnect_calls_signal _ _⟩

theorem C11_disconnect_reported_witness :
    demo_watched.is_open = true ∧
    ∃ ev, lm_connection_close demo_watched
        = (Status.success, { demo_watched with io_channel := none, is_open := false }, ev) ∧
      disconnect_calls ev = [(200, .LM_DISCONNECT_REASON_OK, 9)] ∧
      disconnect_calls (connection_hup_event (lm_connection_close demo_watched).2.1).2
        = [(200, .LM_DISCONNECT_REASON_HUP, 9)] :=
  ⟨rfl, (C11_disconnect_reported demo_watched).1 rfl⟩
/-- C12: in every state reached from `lm_connection_new` by any sequence of
operations and events, a connection without channel is not open. -/
theorem C12_no_channel_not_open (ext : Collaborators) (server : Option String)
    (ops : List Operation) (c : LmConnection)
    (hreach : run ext ops (lm_connection_new server) = some c)
    (hch : c.io_channel = none) :
    c.is_open = false := by
  have h := (run_inv ext ops _ c (new_inv server) hreach).1
  rw [h, hch]
  rfl

theorem C12_no_channel_not_open_witness :
    ∃ c, run demo_ext demo_session (lm_connection_new (some "example.org")) = some c ∧
      c.io_channel = none ∧ c.is_open = false := by
  refine ⟨_, rfl, rfl, ?_⟩
  exact C12_no_channel_not_open demo_ext (some "example.org") demo_session _ rfl rfl
/-- C13 (as amended): a new connection holds no stream id, and none is held as
long as no dispatch step and no `lm_connection_open_and_block` has taken place;
a dispatch step sets the stream id exactly when the stanza it pops is of the
stream type; every operation other than these two leaves the stream id as it
was, and in particular `lm_connection_close`, the error event and the hangup
event do not clear it. -/
theorem C13_stream_id_kept (ext : Collaborators) :
    (∀ server, (lm_connection_new server).stream_id = none) ∧
    (∀ server ops c, (∀ op ∈ ops, takes_stream_stanza op = false) →
      run ext ops (lm_connection_new server) = some c → c.stream_id = none) ∧
    (∀ op c c1, step ext op c = some c1 → takes_stream_stanza op = false →
      c1.stream_id = c.stream_id) ∧
    (∀ c m rest c1 ev, c.incoming_messages = m :: rest →
      connection_incoming_dispatch c = some (c1, ev) →
      c1.stream_id =
        if lm_message_get_type m = .LM_MESSAGE_TYPE_STREAM then
          lm_message_node_get_attribute m.node "id"
        else c.stream_id) ∧
    (∀ c, (lm_connection_close c).2.1.stream_id = c.stream_id ∧
      (connection_error_event c).1.stream_id = c.stream_id ∧
      (connection_hup_event c).1.stream_id = c.stream_id) := by
  refine ⟨fun _ => rfl, ?_, ?_, ?_, ?_⟩
  · intro server ops c hops hr
    exact run_stream_id ext ops _ c hops hr
  · intro op c c1 hs hop
    exact step_stream_id ext op c c1 hop hs
  · intro c m rest c1 ev hq hd
    exact dispatch_stream_id c c1 m rest ev hq hd
  · intro c
    exact ⟨close_stream_id c, rfl, rfl⟩

theorem C13_stream_id_kept_witness :
    step demo_ext .close demo_open = some (lm_connection_close demo_open).2.1 ∧
    takes_stream_stanza .close = false ∧
    (lm_connection_close demo_open).2.1.stream_id = some "abc123" ∧
    (lm_connection_close demo_open).2.1.is_open = false :=
  ⟨rfl, rfl,
   (C13_stream_id_kept demo_ext).2.2.1 .close demo_open (lm_connection_close demo_open).2.1
      rfl rfl,
   rfl⟩

/-- C13 (as stated) fails: after open, the arrival and dispatch of the server's
stream stanza, and close, the connection is not open and still holds the stream
id `abc123`. -/
theorem C13_counterexample :
    ∃ c, run demo_ext demo_session (lm_connection_new (some "example.org")) = some c ∧
      c.is_open = false ∧ c.stream_id = some "abc123" :=
  ⟨_, rfl, rfl, rfl⟩
/-- C14: on a reply whose `type` attribute is `result` the reply handler
`connection_auth_reply` runs the stored authenticate callback with success, on
`error` with failure; the callback is run exactly once, the authenticate slot is
empty afterwards and the handler returns REMOVE_MESSAGE, so that a reply routed
to it through the correlation map reaches no handler of a type chain. -/
theorem C14_auth_reply_outcome (c : LmConnection) (m : LmMessage) (t : String)
    (ht : lm_message_node_get_attribute m.node "type" = some t)
    (hres : t = "result" ∨ t = "error") :
    (∃ ev, connection_auth_reply c m
        = some (.LM_HANDLER_RESULT_REMOVE_MESSAGE, { c with auth_cb := none }, ev) ∧
      result_calls ev = called_once c.auth_cb (decide (t = "result"))) ∧
    (∀ h : LmMessageHandler, h.function = .connection_auth_reply →
      lm_message_get_type m ≠ .LM_MESSAGE_TYPE_STREAM → id_handler_of c m = some h →
      ∃ c1 ev, connection_handle_message c m = some (c1, ev) ∧
        invoked ev = [(h.addr, m)] ∧
        result_calls ev = called_once c.auth_cb (decide (t = "result")) ∧
        c1.auth_cb = none) := by
  have hdec : decide (t ≠ "error") = decide (t = "result") := by
    rcases hres with h | h <;> subst h <;> decide
  constructor
  · obtain ⟨ev, h1, h2, _⟩ := auth_reply_run c m t ht
    exact ⟨ev, h1, by rw [h2, hdec]⟩
  · intro h hf hns hid
    obtain ⟨c1, ev, h1, h2, h3, h4, _⟩ := auth_reply_dispatch c m t h ht hf hns hid
    exact ⟨c1, ev, h1, h2, by rw [h3, hdec], h4⟩

theorem C14_auth_reply_outcome_witness :
    lm_message_node_get_attribute (demo_auth_answer "error" .LM_MESSAGE_SUB_TYPE_ERROR).node "type"
      = some "error" ∧
    ∃ c1 ev, connection_handle_message demo_authing
        (demo_auth_answer "error" .LM_MESSAGE_SUB_TYPE_ERROR) = some (c1, ev) ∧
      invoked ev = [(50, demo_auth_answer "error" .LM_MESSAGE_SUB_TYPE_ERROR)] ∧
      result_calls ev = [(300, false, 7)] ∧
      c1.auth_cb = none :=
  ⟨rfl,
   (C14_auth_reply_outcome demo_authing (demo_auth_answer "error" .LM_MESSAGE_SUB_TYPE_ERROR)
      "error" rfl (Or.inr rfl)).2 { addr := 50, function := .connection_auth_reply } rfl
      (by decide) rfl⟩
/-- C15 (evaluation at the failing input): on the open connection with stream id
`abc123`, `lm_connection_authenticate` is called and the reply with type
`result` is dispatched: the authenticate callback is run with success, and
`lm_connection_is_authenticated` still returns false.  The same holds after
`lm_connection_authenticate_and_block` has returned success.  A new connection
is not authenticated either. -/
theorem C15_authenticated_never_set :
    (∃ c1 ev1 c2 ev2,
      lm_connection_authenticate demo_ext "g" 50 demo_open "user" "secret" "home"
          (some 300) 7 none = some (Status.success, c1, ev1) ∧
      connection_handle_message c1 (demo_auth_answer "result" .LM_MESSAGE_SUB_TYPE_RESULT)
        = some (c2, ev2) ∧
      result_calls ev2 = [(300, true, 7)] ∧
      lm_connection_is_authenticated c2 = false) ∧
    (∃ c1 ev,
      lm_connection_authenticate_and_block demo_ext "g"
          [[.in_event [demo_auth_answer "result" .LM_MESSAGE_SUB_TYPE_RESULT]]]
          demo_open "user" "secret" "home" = some (Status.success, c1, ev) ∧
      lm_connection_is_authenticated c1 = false) ∧
    lm_connection_is_authenticated (lm_connection_new (some "example.org")) = false :=
  ⟨⟨_, _, _, _, rfl, rfl, by decide, rfl⟩, ⟨_, _, rfl, rfl⟩, rfl⟩
/-- C16: on an open connection with stream id `sid`, what
`lm_connection_authenticate` sends is the serialisation of `spec_auth_stanza`:
an `iq` of sub-type `set` with a `query` child in the namespace
`jabber:iq:auth` holding `username`, `digest` (the hash of `sid ++ password`)
and `resource`; `lm_connection_authenticate_and_block` sends the same stanza
first, and returns success when a reply of sub-type `result` with the request
id is the only arrival. -/
theorem C16_auth_request_sent (ext : Collaborators) (gen_id : String) (handler_addr : Nat)
    (c : LmConnection) (sid username password resource : String)
    (function : Option Nat) (user_data : Nat) (notify : Option Nat)
    (hopen : c.is_open = true) (hsid : c.stream_id = some sid) :
    request_with_id (auth_request ext sid username password resource) gen_id
      = (gen_id, spec_auth_stanza ext gen_id sid username password resource) ∧
    (∃ c1, lm_connection_authenticate ext gen_id handler_addr c username password resource
        function user_data notify
      = some (Status.success, c1,
          [Event.write (send_text (ext.lm_message_node_to_string
            (spec_auth_stanza ext gen_id sid username password resource).node))])) ∧
    (∀ schedule r,
      lm_connection_authenticate_and_block ext gen_id schedule c username password resource
        = some r →
      ∃ rest, r.2.2 = Event.write (send_text (ext.lm_message_node_to_string
          (spec_auth_stanza ext gen_id sid username password resource).node)) :: rest) ∧
    (∀ (reply : LmMessage) (fd : Nat), c.incoming_messages = [] → c.io_channel = some fd →
      lm_message_node_get_attribute reply.node "id" = some gen_id →
      lm_message_get_sub_type reply = .LM_MESSAGE_SUB_TYPE_RESULT →
      ∃ ev, lm_connection_authenticate_and_block ext gen_id [[.in_event [reply]]] c
          username password resource
        = some (Status.success, { c with incoming_source := true }, ev)) := by
  have hreq : request_with_id (auth_request ext sid username password resource) gen_id
      = (gen_id, spec_auth_stanza ext gen_id sid username password resource) := rfl
  have hno : ¬ ((!lm_connection_is_open c) = true) := by
    simp [lm_connection_is_open, hopen]
  refine ⟨hreq, ?_, ?_, ?_⟩
  · refine ⟨{ c with
        auth_cb := some (_lm_utils_new_callback function user_data notify),
        id_handlers := g_hash_table_insert c.id_handlers gen_id
          { addr := handler_addr, function := .connection_auth_reply } }, ?_⟩
    unfold lm_connection_authenticate
    rw [if_neg hno]
    simp only [hsid, lm_connection_send_with_reply, hreq]
    simp [lm_connection_send, connection_send, lm_connection_is_open, hopen, hsid]
  · intro schedule r hr
    unfold lm_connection_authenticate_and_block at hr
    rw [if_neg hno] at hr
    simp only [hsid] at hr
    cases h2 : lm_connection_send_with_reply_and_block ext gen_id schedule c
        (auth_request ext sid username password resource) with
    | none => simp [h2] at hr
    | some y =>
      obtain ⟨reply, c1, ev⟩ := y
      obtain ⟨rest, hrest⟩ := block_events_start ext gen_id schedule c _ _ h2
      rw [hreq, send_open_events ext _ _ (show
        ({ c with incoming_source := false } : LmConnection).is_open = true from hopen)] at hrest
      simp only [h2] at hr
      have hev : ev = Event.write (send_text (ext.lm_message_node_to_string
          (spec_auth_stanza ext gen_id sid username password resource).node)) :: rest := hrest
      split at hr
      · simp only [Option.some.injEq] at hr
        exact ⟨rest, by rw [← hr]; exact hev⟩
      · simp only [Option.some.injEq] at hr
        exact ⟨rest, by rw [← hr]; exact hev⟩
      · simp at hr
  · intro reply fd hq hch hid hsub
    obtain ⟨ev, hev⟩ := block_single_reply ext gen_id c
      (auth_request ext sid username password resource) reply fd hq hch
      (by rw [hreq]; exact hid)
    refine ⟨ev, ?_⟩
    unfold lm_connection_authenticate_and_block
    rw [if_neg hno]
    simp only [hsid, hev, hsub]
    rfl

theorem C16_auth_request_sent_witness :
    demo_open.is_open = true ∧ demo_open.stream_id = some "abc123" ∧
    (∃ c1, lm_connection_authenticate demo_ext "g" 50 demo_open "user" "secret" "home"
        (some 300) 7 none
      = some (Status.success, c1,
          [Event.write (send_text (demo_ext.lm_message_node_to_string
            (spec_auth_stanza demo_ext "g" "abc123" "user" "secret" "home").node))])) ∧
    (spec_auth_stanza demo_ext "g" "abc123" "user" "secret" "home").node.children.map
        (fun q => q.children.map (fun n => (n.name, n.value)))
      = [[("username", some "user"), ("digest", some "abc123secret"),
          ("resource", some "home")]] :=
  ⟨rfl, rfl,
   (C16_auth_request_sent demo_ext "g" 50 demo_open "abc123" "user" "secret" "home"
      (some 300) 7 none rfl rfl).2.1,
   by decide⟩
/-- On a closed connection with a server configured whose socket set-up
succeeds, and as long as the loop dispatches no error and no hangup callback,
`lm_connection_open_and_block` returns success with the first iteration after
which a stream stanza is the tail of the queue: on return the stream id is that
stanza's `id` attribute, the connection is open and holds the channel, the
stream stanza is off the queue, every stanza queued before it is still queued
in order, and the dispatch source is attached again. -/
theorem open_and_block_stream_taken (ext : Collaborators) (fd : Nat) (c : LmConnection)
    (server : String) (pre : List (List ReadyCallback)) (it : List ReadyCallback)
    (rest : List (List ReadyCallback)) (m : LmMessage)
    (hclosed : c.is_open = false) (hserver : c.server = some server)
    (hpre : ∀ i ∈ pre, no_disconnect i = true) (hit : no_disconnect it = true)
    (hfirst : ∀ p, p <+: pre → p ≠ [] → ∀ m0,
      (c.incoming_messages ++ arrived_all p).getLast? = some m0 →
      lm_message_get_type m0 ≠ .LM_MESSAGE_TYPE_STREAM)
    (htail : (c.incoming_messages ++ arrived_all (pre ++ [it])).getLast? = some m)
    (hm : lm_message_get_type m = .LM_MESSAGE_TYPE_STREAM) :
    ∃ c1 ev,
      lm_connection_open_and_block ext (.connected fd) (pre ++ it :: rest) c
        = some (Status.success, c1, ev) ∧
      c1.stream_id = lm_message_node_get_attribute m.node "id" ∧
      c1.is_open = true ∧ c1.io_channel = some fd ∧
      c1.incoming_messages ++ [m] = c.incoming_messages ++ arrived_all (pre ++ [it]) ∧
      c1.incoming_source = true := by
  have hloop := open_loop_returns fd it rest m hit hm pre
    { c with io_channel := some fd, is_open := true, incoming_source := false } 0 rfl
    (Nat.zero_le _)
    (by
      intro m0 h0 _
      cases hq : c.incoming_messages with
      | nil => simp [hq] at h0
      | cons x xs => simp)
    hpre hfirst htail
  have hcall : ∃ ev, lm_connection_open_and_block ext (.connected fd) (pre ++ it :: rest) c
      = some (Status.success, { c with
          io_channel := some fd, is_open := true,
          stream_id := lm_message_node_get_attribute m.node "id",
          incoming_messages := (c.incoming_messages ++ arrived_all (pre ++ [it])).dropLast,
          incoming_source := true }, ev) := by
    unfold lm_connection_open_and_block
    have hno : ¬ (lm_connection_is_open c = true) := by
      simp [lm_connection_is_open, hclosed]
    have hsrv : ¬ (c.server.isNone = true) := by simp [hserver]
    rw [if_neg hno, if_neg hsrv]
    simp only [connection_do_open, connection_send, lm_connection_is_open, Status.success,
      Bool.not_true, Bool.false_eq_true, if_false]
    simp only at hloop
    rw [hloop]
    exact ⟨_, rfl⟩
  obtain ⟨ev, hev⟩ := hcall
  exact ⟨_, ev, hev, rfl, rfl, rfl, List.dropLast_append_getLast? m htail, rfl⟩

theorem open_and_block_stream_taken_demo :
    ∃ c1 ev,
      lm_connection_open_and_block demo_ext (.connected 3)
          ([] ++ [.in_event [demo_other, demo_stream]] :: [])
          { lm_connection_new (some "example.org") with incoming_messages := [demo_queued] }
        = some (Status.success, c1, ev) ∧
      c1.stream_id = some "abc123" ∧
      c1.is_open = true ∧ c1.io_channel = some 3 ∧
      c1.incoming_messages ++ [demo_stream] = [demo_queued, demo_other, demo_stream] ∧
      c1.incoming_source = true :=
  open_and_block_stream_taken demo_ext 3
    { lm_connection_new (some "example.org") with incoming_messages := [demo_queued] }
    "example.org" [] [.in_event [demo_other, demo_stream]] [] demo_stream rfl rfl
    (by intro i hi; cases hi) rfl
    (by
      intro p hp hne
      exact absurd (List.prefix_nil.mp hp) hne)
    rfl rfl

/-- C17 (evaluation at the failing input): on a closed connection to
"example.org" whose socket connects, when the loop iteration that brings the
server's stream stanza also dispatches the hangup callback, or the error
callback, `lm_connection_open_and_block` returns success with the stream id
"abc123" set and the stream stanza off the queue, while the connection it
returns is closed, holds no channel and reports `lm_connection_is_open`
false. -/
theorem C17_open_and_block_closed_success :
    (∃ c1 ev,
      lm_connection_open_and_block demo_ext (.connected 3)
          [[.in_event [demo_stream], .hup_event]] (lm_connection_new (some "example.org"))
        = some (Status.success, c1, ev) ∧
      c1.stream_id = some "abc123" ∧ c1.incoming_messages = [] ∧
      c1.is_open = false ∧ c1.io_channel = none ∧ lm_connection_is_open c1 = false) ∧
    (∃ c1 ev,
      lm_connection_open_and_block demo_ext (.connected 3)
          [[.in_event [demo_stream], .error_event]] (lm_connection_new (some "example.org"))
        = some (Status.success, c1, ev) ∧
      c1.stream_id = some "abc123" ∧ c1.incoming_messages = [] ∧
      c1.is_open = false ∧ c1.io_channel = none ∧ lm_connection_is_open c1 = false) :=
  ⟨⟨_, _, rfl, rfl, rfl, rfl, rfl, rfl⟩, ⟨_, _, rfl, rfl, rfl, rfl, rfl, rfl⟩⟩
/-- C18: `lm_connection_unregister_message_handler` takes out of the chain of
the given type the first entry whose handler is the object `h` and nothing
else: the entries before and after it, later entries for `h` included, keep
their order, so a chain ordered by priority stays ordered; a chain without
entry for `h` is left as it is, and so are the chains of all other types and
the rest of the connection. -/
theorem C18_unregister_first (c : LmConnection) (h : LmMessageHandler) (type : LmMessageType) :
    (∀ pre hd post, c.handlers type = pre ++ hd :: post → hd.handler.addr = h.addr →
      (∀ x ∈ pre, x.handler.addr ≠ h.addr) →
      (lm_connection_unregister_message_handler c h type).handlers type = pre ++ post) ∧
    ((∀ x ∈ c.handlers type, x.handler.addr ≠ h.addr) →
      lm_connection_unregister_message_handler c h type = c) ∧
    (∀ t, t ≠ type →
      (lm_connection_unregister_message_handler c h type).handlers t = c.handlers t) ∧
    (∀ R : HandlerData → HandlerData → Prop, List.Pairwise R (c.handlers type) →
      List.Pairwise R ((lm_connection_unregister_message_handler c h type).handlers type)) ∧
    lm_connection_unregister_message_handler c h type
      = { c with handlers := (lm_connection_unregister_message_handler c h type).handlers } := by
  have hchain : (lm_connection_unregister_message_handler c h type).handlers type
      = unregister_loop h (c.handlers type) := by
    simp [lm_connection_unregister_message_handler]
  refine ⟨?_, ?_, ?_, ?_, rfl⟩
  · intro pre hd post hsplit hm hno
    rw [hchain, hsplit]
    exact unregister_loop_split h pre hd post hm hno
  · intro hno
    unfold lm_connection_unregister_message_handler
    rw [unregister_loop_absent h _ hno, Function.update_eq_self]
  · intro t ht
    simp [lm_connection_unregister_message_handler, Function.update_noteq ht]
  · intro R hR
    rw [hchain]
    exact hR.sublist (unregister_loop_sublist h _)

theorem C18_unregister_first_witness :
    ((lm_connection_unregister_message_handler demo_twice
        (demo_handler 1 .LM_HANDLER_RESULT_ALLOW_MORE_HANDLERS) .LM_MESSAGE_TYPE_IQ).handlers
      .LM_MESSAGE_TYPE_IQ).map (fun hd => (hd.handler.addr, hd.priority)) = [(2, 2), (1, 1)] ∧
    (lm_connection_unregister_message_handler demo_twice
        (demo_handler 1 .LM_HANDLER_RESULT_ALLOW_MORE_HANDLERS) .LM_MESSAGE_TYPE_IQ).handlers
      .LM_MESSAGE_TYPE_IQ
      = [] ++ [ { priority := 2,
                  handler := demo_handler 2 .LM_HANDLER_RESULT_ALLOW_MORE_HANDLERS },
                { priority := 1,
                  handler := demo_handler 1 .LM_HANDLER_RESULT_ALLOW_MORE_HANDLERS } ] :=
  ⟨by decide,
   (C18_unregister_first demo_twice (demo_handler 1 .LM_HANDLER_RESULT_ALLOW_MORE_HANDLERS)
      .LM_MESSAGE_TYPE_IQ).1 []
      { priority := 3, handler := demo_handler 1 .LM_HANDLER_RESULT_ALLOW_MORE_HANDLERS }
      [ { priority := 2, handler := demo_handler 2 .LM_HANDLER_RESULT_ALLOW_MORE_HANDLERS },
        { priority := 1, handler := demo_handler 1 .LM_HANDLER_RESULT_ALLOW_MORE_HANDLERS } ]
      rfl rfl (by intro x hx; cases hx)⟩
/-- C19: on a reply with a `type` attribute, `connection_auth_reply` runs the
stored authenticate callback with failure if and only if the attribute is
exactly `error`; any other text (`result`, but also `get` or `set`) makes it
run the callback with success. -/
theorem C19_only_error_fails (c : LmConnection) (m : LmMessage) (t : String)
    (ht : lm_message_node_get_attribute m.node "type" = some t) :
    ∃ ev, connection_auth_reply c m
        = some (.LM_HANDLER_RESULT_REMOVE_MESSAGE, { c with auth_cb := none }, ev) ∧
      result_calls ev = called_once c.auth_cb (decide (t ≠ "error")) ∧
      ∀ cb f, c.auth_cb = some cb → cb.func = some f →
        (t ≠ "error" → result_calls ev = [(f, true, cb.user_data)]) ∧
        (result_calls ev = [(f, false, cb.user_data)] ↔ t = "error") := by
  obtain ⟨ev, h1, h2, _⟩ := auth_reply_run c m t ht
  refine ⟨ev, h1, h2, ?_⟩
  intro cb f hcb hf
  have hcalls : result_calls ev = [(f, decide (t ≠ "error"), cb.user_data)] := by
    rw [h2]
    simp only [called_once, hcb, hf]
  constructor
  · intro hne
    rw [hcalls]
    simp [hne]
  · rw [hcalls]
    by_cases he : t = "error"
    · simp [he]
    · simp [he]

theorem C19_only_error_fails_witness :
    lm_message_node_get_attribute (demo_auth_answer "get" .LM_MESSAGE_SUB_TYPE_GET).node "type"
      = some "get" ∧
    ∃ ev, connection_auth_reply demo_authing (demo_auth_answer "get" .LM_MESSAGE_SUB_TYPE_GET)
        = some (.LM_HANDLER_RESULT_REMOVE_MESSAGE, { demo_authing with auth_cb := none }, ev) ∧
      result_calls ev = [(300, true, 7)] := by
  refine ⟨rfl, ?_⟩
  obtain ⟨ev, h1, h2, _⟩ :=
    C19_only_error_fails demo_authing (demo_auth_answer "get" .LM_MESSAGE_SUB_TYPE_GET) "get" rfl
  exact ⟨ev, h1, h2⟩
end Loudmouth
